import Mathlib

/-!
# sonarqube-ding-robot: a shallow embedding of `main.go`

The program is a webhook bridge.  `dingTalkHandler` receives a SonarQube
callback, fetches a fixed set of measures with `getMeasures`, formats them into
a DingTalk action card and posts the card to the robot webhook.

Go strings that reach the handler through `encoding/json` are valid UTF-8, so
they are embedded as Lean `String`s.  The outside world (HTTP transport, JSON
decoding of bodies) is a parameter of the handler, and every outbound action is
recorded in an explicit trace.
-/

namespace SonarDing

/-! ## Data model -/

/-- Modelled from the spec: one `{metric, value}` record of the measures response
(the Go type declaration is not part of `main.go`). -/
structure Measure where
  Metric : String
  Value : String
  deriving DecidableEq, Repr

/-- Modelled from the spec: the decoded measures payload `MeasuresData`, an ordered
sequence of measures (the Go type declaration is not part of `main.go`). -/
structure MeasuresData where
  Measures : List Measure
  deriving DecidableEq, Repr

/-- Modelled from the spec: the `project` object nested in the callback. -/
structure Project where
  Key : String
  Name : String
  deriving DecidableEq, Repr

/-- Modelled from the spec: the inbound notification `SonarQubeCallBackData` with the
three attributes the handler reads (the Go type declaration is not part of `main.go`). -/
structure SonarQubeCallBackData where
  ServerURL : String
  Project : Project
  deriving DecidableEq, Repr

/-- Modelled from the spec: one action button `DingActionCardBtn`. -/
structure DingActionCardBtn where
  Title : String
  ActionURL : String
  deriving DecidableEq, Repr

/-- Modelled from the spec: the action card `DingActionCard`. -/
structure DingActionCard where
  Title : String
  Text : String
  BtnOrientation : String
  Btns : List DingActionCardBtn
  deriving DecidableEq, Repr

/-- Modelled from the spec: the outbound chat message `DingMsg`. -/
structure DingMsg where
  MsgType : String
  ActionCard : DingActionCard
  deriving DecidableEq, Repr

/-! ## The measure loop of `dingTalkHandler` -/

/-- The string variables of `dingTalkHandler` that the measure loop assigns. -/
structure Locals where
  totalBugs : String
  vulnerabilities : String
  codeSmells : String
  coverage : String
  duplicatedLinesDensity : String
  alertStatus : String
  blocker_violations : String
  critical_violations : String
  major_violations : String
  minor_violations : String
  info_violations : String
  picUrl : String
  deriving DecidableEq, Repr

/-- Go zero values: every `var ... string` starts as the empty string. -/
def Locals.zero : Locals :=
  ⟨"", "", "", "", "", "", "", "", "", "", "", ""⟩

/-- The image used when the quality gate is `ERROR`. -/
def failingImage : String := "http://s1.ax1x.com/2020/10/29/BGMZwD.png"

/-- The image used when the quality gate is `OK`. -/
def passingImage : String := "http://s1.ax1x.com/2020/10/29/BGMeTe.png"

/-- The inner `switch alertStatus`: it assigns `picUrl` in the cases `ERROR` and
`OK` and has no default case, so any other value keeps the current `picUrl`. -/
def alertSwitch (picUrl alertStatus : String) : String :=
  if alertStatus = "ERROR" then failingImage
  else if alertStatus = "OK" then passingImage
  else picUrl

/-- One iteration of `for _, measure := range measuresData.Measures`: the
`switch measure.Metric`, cases tried top to bottom. -/
def measureStep (l : Locals) (measure : Measure) : Locals :=
  if measure.Metric = "bugs" then { l with totalBugs := measure.Value }
  else if measure.Metric = "vulnerabilities" then { l with vulnerabilities := measure.Value }
  else if measure.Metric = "code_smells" then { l with codeSmells := measure.Value }
  else if measure.Metric = "coverage" then { l with coverage := measure.Value }
  else if measure.Metric = "duplicated_lines_density" then
    { l with duplicatedLinesDensity := measure.Value }
  else if measure.Metric = "critical_violations" then
    { l with critical_violations := measure.Value }
  else if measure.Metric = "blocker_violations" then
    { l with blocker_violations := measure.Value }
  else if measure.Metric = "major_violations" then { l with major_violations := measure.Value }
  else if measure.Metric = "minor_violations" then { l with minor_violations := measure.Value }
  else if measure.Metric = "info_violations" then { l with info_violations := measure.Value }
  else if measure.Metric = "alert_status" then
    { l with alertStatus := measure.Value, picUrl := alertSwitch l.picUrl measure.Value }
  else l

/-- The whole loop, started from the zero values. -/
def measureLoop (measures : List Measure) : Locals :=
  measures.foldl measureStep Locals.zero

/-! ## Model of Go's `net/url` query encoding

`buildDingLink` calls `url.Values.Add` and `url.Values.Encode`; the claims about
the links are stated with `url.ParseQuery`.  These standard-library functions
are transcribed here for the one mode the program uses (`encodeQueryComponent`).
A Go string is a byte sequence: the escaping functions read the UTF-8 bytes of
a `String`, and unescaping yields bytes. -/

/-- The bytes of one character, as numbers below 256. -/
def charBytes (c : Char) : List Nat :=
  (String.utf8EncodeChar c).map UInt8.toNat

/-- The bytes of a Go string: the UTF-8 encoding of its characters. -/
def utf8Bytes (s : String) : List Nat :=
  s.data.flatMap charBytes

/-- Go `shouldEscape(c, encodeQueryComponent)`: letters, digits and `-_.~` are
kept, every other byte is escaped. -/
def shouldEscape (c : Nat) : Bool :=
  if (97 ≤ c && c ≤ 122) || (65 ≤ c && c ≤ 90) || (48 ≤ c && c ≤ 57) then false
  else if c = 45 || c = 95 || c = 46 || c = 126 then false
  else true

/-- Go `upperhex[i]` for the table `"0123456789ABCDEF"`. -/
def upperhex (i : Nat) : Char :=
  "0123456789ABCDEF".data.getD i '0'

/-- The output of Go `escape` for one input byte: a space becomes `+`, a byte
that must be escaped becomes `%XX`, any other byte is copied. -/
def escapeByte (c : Nat) : List Char :=
  if c = 32 then ['+']
  else if shouldEscape c then ['%', upperhex (c / 16), upperhex (c % 16)]
  else [Char.ofNat c]

/-- Go `url.QueryEscape`. -/
def QueryEscape (s : String) : String :=
  ⟨(utf8Bytes s).flatMap escapeByte⟩

/-- Go `ishex`. -/
def ishex (c : Char) : Bool :=
  (48 ≤ c.toNat && c.toNat ≤ 57) || (97 ≤ c.toNat && c.toNat ≤ 102) ||
    (65 ≤ c.toNat && c.toNat ≤ 70)

/-- Go `unhex`. -/
def unhex (c : Char) : Nat :=
  if 48 ≤ c.toNat && c.toNat ≤ 57 then c.toNat - 48
  else if 97 ≤ c.toNat && c.toNat ≤ 102 then c.toNat - 97 + 10
  else if 65 ≤ c.toNat && c.toNat ≤ 70 then c.toNat - 65 + 10
  else 0

/-- Go `unescape(s, encodeQueryComponent)` on the characters of `s`: `%XX` gives the
byte `XX`, `+` gives a space, any other character gives its own bytes; a `%` that is
not followed by two hex digits is an error (`none`). -/
def unescapeChars : List Char → Option (List Nat)
  | [] => some []
  | c :: rest =>
    if c = '%' then
      match rest with
      | h1 :: h2 :: rest2 =>
        if ishex h1 && ishex h2 then
          (unescapeChars rest2).map fun t => (unhex h1 * 16 + unhex h2) :: t
        else none
      | _ => none
    else if c = '+' then (unescapeChars rest).map fun t => 32 :: t
    else (unescapeChars rest).map fun t => charBytes c ++ t

/-- Go `url.QueryUnescape`; the result is the decoded byte string. -/
def QueryUnescape (s : String) : Option (List Nat) :=
  unescapeChars s.data


/-- Go `url.Values`, a `map[string][]string`, kept as an association list with one
entry per key; `σ` is the string type (`String`, or bytes after unescaping). -/
abbrev Values (σ : Type) := List (σ × List σ)

/-- The map read `v[key]`: the values stored under `key`, none when the key is absent. -/
def Values.index {σ : Type} [DecidableEq σ] (v : Values σ) (key : σ) : List σ :=
  match v with
  | [] => []
  | (k, vs) :: rest => if k = key then vs else Values.index rest key

/-- Go `Values.Add`: `v[key] = append(v[key], value)`. -/
def Values.Add {σ : Type} [DecidableEq σ] (v : Values σ) (key value : σ) : Values σ :=
  match v with
  | [] => [(key, [value])]
  | (k, vs) :: rest =>
    if k = key then (k, vs ++ [value]) :: rest else (k, vs) :: Values.Add rest key value

/-- Go `Values.Get`: the first value stored under `key`, the empty string when there
is none. -/
def Values.Get (v : Values String) (key : String) : String :=
  match Values.index v key with
  | [] => ""
  | x :: _ => x

/-- Go's `<=` on strings: lexicographic order of the bytes. -/
def bytesLE : List Nat → List Nat → Bool
  | [], _ => true
  | _ :: _, [] => false
  | a :: as, b :: bs => a < b || (a == b && bytesLE as bs)

/-- The keys of the map in the order `slices.Sort` leaves them. -/
def sortedKeys (v : Values String) : List String :=
  (v.map Prod.fst).insertionSort fun a b => bytesLE (utf8Bytes a) (utf8Bytes b) = true

/-- Go `Values.Encode`: for each key in sorted order and each of its values, write
`&` unless the buffer is still empty, then the escaped key, `=` and the escaped value. -/
def Values.Encode (v : Values String) : String :=
  (sortedKeys v).foldl
    (fun buf k =>
      (Values.index v k).foldl
        (fun buf value =>
          (if 0 < buf.length then buf ++ "&" else buf) ++ QueryEscape k ++ "=" ++ QueryEscape value)
        buf)
    ""

/-- Go `strings.Cut(s, sep)` for a separator of one character: the text before the
first `sep`, the text after it, and whether `sep` was found. -/
def cut (s : List Char) (sep : Char) : List Char × List Char × Bool :=
  match s with
  | [] => ([], [], false)
  | c :: rest =>
    if c = sep then ([], rest, true)
    else ((c :: (cut rest sep).1), (cut rest sep).2.1, (cut rest sep).2.2)

/-- The loop of Go `parseQuery`: `m` is the map built so far and `err` tells whether
an error has been recorded.  A segment containing `;`, or whose key or value does not
unescape, records an error and is skipped; an empty segment is skipped. -/
def parseQueryChars (m : Values (List Nat)) (err : Bool) (query : List Char) :
    Values (List Nat) × Bool :=
  match query with
  | [] => (m, err)
  | c :: rest =>
    let key := (cut (c :: rest) '&').1
    let query' := (cut (c :: rest) '&').2.1
    if key.contains ';' then parseQueryChars m true query'
    else if key = [] then parseQueryChars m err query'
    else
      match unescapeChars (cut key '=').1 with
      | none => parseQueryChars m true query'
      | some k =>
        match unescapeChars (cut key '=').2.1 with
        | none => parseQueryChars m true query'
        | some value => parseQueryChars (Values.Add m k value) err query'
termination_by query.length
decreasing_by
  all_goals
    have h : ∀ s : List Char, (cut s '&').2.1.length ≤ s.length := by
      intro s
      induction s with
      | nil => simp [cut]
      | cons x xs ih =>
        unfold cut
        split
        · simp
        · simp only [List.length_cons]
          omega
    have hr := h rest
    unfold cut
    split
    · simp
    · simp only [List.length_cons]
      omega

/-- Go `url.ParseQuery` (Go 1.17 and later, where `;` is no longer a separator): the map
of decoded keys and values, and whether an error was reported. -/
def ParseQuery (query : String) : Values (List Nat) × Bool :=
  parseQueryChars [] false query.data

/-- The function `buildDingLink` of `main.go`. -/
def buildDingLink (url : String) (pcSlide : Bool) : String :=
  let params : Values String := []
  let params := Values.Add params "url" url
  let sPcSlide := if pcSlide then "true" else "false"
  let params := Values.Add params "pcSlide" sPcSlide
  "dingtalk://dingtalkclient/page/link?" ++ Values.Encode params


/-! ## The outside world

`getMeasures` and `dingTalkHandler` talk to the network.  The transport and the JSON
decoding of message bodies are parameters; errors are represented by their text. -/

/-- An outbound request as `http.NewRequest` builds it: the method, the URL string it
was built from, and the basic-auth pair set by `req.SetBasicAuth` (none for the webhook
POST).  How `net/http` splits the URL string into host, path, query and fragment is not
modelled. -/
structure Request where
  Method : String
  URL : String
  BasicAuth : Option (String × String)
  deriving DecidableEq, Repr

/-- The reply of the scan server.  The body is represented by what
`json.NewDecoder(resp.Body).Decode(&measuresData)` yields for it. -/
structure Response where
  StatusCode : Nat
  Decoded : Except String MeasuresData

/-- The process state and transport the handler runs against. -/
structure Env where
  /-- The value of the `-token` flag. -/
  token : String
  /-- The error, if any, of `http.NewRequest(method, url, body)`: the URL string does not
  parse.  Both `getMeasures` and `http.Post` build their request with it. -/
  newRequestErr : String → String → Option String
  /-- Go `httpClient.Do`. -/
  clientDo : Request → Except String Response
  /-- The default client sending the POST request that `http.Post` has built for `url`,
  with the JSON of the message as body; the result is the text `fmt.Fprint(w, response)`
  writes for the returned response (`<nil>` when sending fails). -/
  postDo : String → String → DingMsg → String

/-- The inbound request after `r.ParseForm()`: the parsed form (its keys and values taken
as text), and the body represented by what
`json.NewDecoder(r.Body).Decode(&sonarQubeCallBackData)` yields for it. -/
structure InboundRequest where
  Form : Values String
  Body : Except String SonarQubeCallBackData

/-- A call the handler makes to the outside: `httpClient.Do(req)`, which sends `req`; a
print on the console; the call `http.Post(url, contentType, body)` with the JSON of
`payload` as body.  Whether `http.Post` sends a request is decided inside it, see
`httpPost`. -/
inductive Effect where
  | clientDo (req : Request)
  | stdout (text : String)
  | httpPost (url contentType : String) (payload : DingMsg)
  deriving DecidableEq, Repr

/-- How one call of the handler ends: `log.Fatal` stops the process, otherwise a status
code and a body are written to the caller. -/
inductive Outcome where
  | fatal (err : String)
  | responded (status : Nat) (body : String)
  deriving DecidableEq, Repr

/-- One call of the handler: the calls it makes to the outside, in order; the HTTP
requests that were built for these calls and handed to a client for sending, in order;
and its outcome. -/
structure Run where
  effects : List Effect
  requests : List Request
  outcome : Outcome
  deriving DecidableEq, Repr

/-- The URL `getMeasures` formats from the server URL and the project key. -/
def measuresUrl (sonarUrl projectKey : String) : String :=
  sonarUrl ++ "/api/measures/search?projectKeys=" ++ projectKey ++
    "&metricKeys=alert_status,bugs,reliability_rating,vulnerabilities,security_rating,code_smells,sqale_rating,duplicated_lines_density,coverage,ncloc,ncloc_language_distribution,critical_violations,blocker_violations,major_violations,minor_violations,info_violations"

/-- The function `getMeasures` of `main.go`, with the requests it sends.  The Go function
returns the pair `(measuresData, err)`; the caller reads the data only when `err` is nil,
so the pair is an `Except`.  The status code of the reply is never read. -/
def getMeasures (env : Env) (sonarUrl projectKey : String) :
    List Effect × Except String MeasuresData :=
  let url := measuresUrl sonarUrl projectKey
  match env.newRequestErr "GET" url with
  | some err => ([], .error err)
  | none =>
    let req : Request := ⟨"GET", url, some (env.token, "")⟩
    match env.clientDo req with
    | .error err => ([Effect.clientDo req], .error err)
    | .ok resp => ([Effect.clientDo req], resp.Decoded)

/-- The requests issued by the calls of a trace of `getMeasures`: `httpClient.Do(req)`
issues `req`. -/
def sentRequests (effects : List Effect) : List Request :=
  effects.filterMap fun e =>
    match e with
    | Effect.clientDo req => some req
    | _ => none

/-- Go `http.Post(url, contentType, body)`: it builds the request with
`NewRequest("POST", url, body)`; when that fails no request is sent and the response is
nil, which `fmt.Fprint` writes as `<nil>`; otherwise the default client sends the request.
The result is the requests sent and the text written for the response.  The handler
discards the error `http.Post` returns. -/
def httpPost (env : Env) (url contentType : String) (payload : DingMsg) :
    List Request × String :=
  match env.newRequestErr "POST" url with
  | some _ => ([], "<nil>")
  | none => ([⟨"POST", url, none⟩], env.postDo url contentType payload)

/-- The variable `sendUrl` of `dingTalkHandler`. -/
def sendUrl (accessToken : String) : String :=
  "https://oapi.dingtalk.com/robot/send?access_token=" ++ accessToken

/-- The variable `messageUrl` of `dingTalkHandler`. -/
def messageUrl (sonarUrl projectKey : String) : String :=
  sonarUrl ++ "/dashboard?id=" ++ projectKey

/-- The variable `pdfUrl` of `dingTalkHandler`. -/
def pdfUrl (sonarUrl projectKey : String) : String :=
  sonarUrl ++ "/api/pdfreport/get?componentKey=" ++ projectKey

/-- The variable `textList` of `dingTalkHandler`. -/
def textList (projectName : String) (l : Locals) : List String :=
  [ "![head](" ++ l.picUrl ++ ")",
    "本次扫描仓库: " ++ projectName,
    "## 代码总体扫描结果",
    "BUG数: " ++ l.totalBugs ++ " 个",
    "漏洞数: " ++ l.vulnerabilities ++ " 个",
    "异味数: " ++ l.codeSmells ++ " 个",
    "测试覆盖率: " ++ l.coverage ++ "%",
    "代码重复率: " ++ l.duplicatedLinesDensity ++ "%",
    "阻断blocker数: " ++ l.blocker_violations ++ " 个",
    "严重critical数: " ++ l.critical_violations ++ " 个",
    "主要major数: " ++ l.major_violations ++ " 个",
    "次要minor数: " ++ l.minor_violations ++ " 个",
    "提示info数: " ++ l.info_violations ++ " 个" ]

/-- The variable `dingMsg` of `dingTalkHandler`. -/
def dingMsg (projectName sonarUrl projectKey : String) (l : Locals) : DingMsg :=
  { MsgType := "actionCard",
    ActionCard :=
      { Title := "仓库 " ++ projectName ++ " 的代码静态扫描结果",
        Text := String.intercalate "\n\n" (textList projectName l),
        BtnOrientation := "0",
        Btns :=
          [ { Title := "点击查看分析结果WEB(需要浏览器登陆过sonarqube)",
              ActionURL := buildDingLink (messageUrl sonarUrl projectKey) false },
            { Title := "点击下载分析报告PDF(需要浏览器登陆过sonarqube)",
              ActionURL := buildDingLink (pdfUrl sonarUrl projectKey) false } ] } }

/-- The function `dingTalkHandler` of `main.go`. -/
def dingTalkHandler (env : Env) (r : InboundRequest) : Run :=
  let accessToken := Values.Get r.Form "access_token"
  match r.Body with
  | .error err => ⟨[], [], Outcome.fatal err⟩
  | .ok sonarQubeCallBackData =>
    let sonarUrl := sonarQubeCallBackData.ServerURL
    let projectName := sonarQubeCallBackData.Project.Name
    let projectKey := sonarQubeCallBackData.Project.Key
    match getMeasures env sonarUrl projectKey with
    | (effects, .error err) =>
      ⟨effects ++ [Effect.stdout ("request measures error: " ++ err ++ "\n")],
        sentRequests effects,
        Outcome.responded 500 ("request measures error: " ++ err)⟩
    | (effects, .ok measuresData) =>
      let l := measureLoop measuresData.Measures
      let msg := dingMsg projectName sonarUrl projectKey l
      let response := httpPost env (sendUrl accessToken) "application/json" msg
      ⟨effects ++ [Effect.httpPost (sendUrl accessToken) "application/json" msg],
        sentRequests effects ++ response.1,
        Outcome.responded 200 response.2⟩

/-! ## Definitions used to state the properties -/

/-- The value of the last measure named `name` in the response, the empty string when
the response has no such measure. -/
def lastValue (measures : List Measure) (name : String) : String :=
  match (measures.filter fun m => m.Metric = name).getLast? with
  | some m => m.Value
  | none => ""

/-- The eleven metric names `dingTalkHandler` reads. -/
def readMetrics : List String :=
  ["bugs", "vulnerabilities", "code_smells", "coverage", "duplicated_lines_density",
    "critical_violations", "blocker_violations", "major_violations", "minor_violations",
    "info_violations", "alert_status"]

/-- Whether an effect is the metrics request: a `GET` sent through `httpClient.Do`. -/
def Effect.isGet : Effect → Bool
  | Effect.clientDo req => req.Method = "GET"
  | _ => false

/-- Whether an effect is a call of `http.Post`. -/
def Effect.isPost : Effect → Bool
  | Effect.httpPost _ _ _ => true
  | _ => false

/-- Go `stringContainsCTLByte`: whether the string has an ASCII control character. -/
def stringContainsCTLByte (s : String) : Bool :=
  (utf8Bytes s).any fun b => decide (b < 32) || decide (b = 127)

/-- A transport that answers every metrics request with `resp` and builds a request
from every URL. -/
def sampleEnv (resp : Except String Response) : Env :=
  { token := "squ_token",
    newRequestErr := fun _ _ => none,
    clientDo := fun _ => resp,
    postDo := fun _ _ _ => "&\x7b200 OK\x7d" }

/-- A transport that answers every metrics request with `resp` and whose
`http.NewRequest` rejects, as `url.Parse` does, a URL with an ASCII control character. -/
def strictEnv (resp : Except String Response) : Env :=
  { token := "squ_token",
    newRequestErr := fun _ url =>
      if stringContainsCTLByte url then some "net/url: invalid control character in URL"
      else none,
    clientDo := fun _ => resp,
    postDo := fun _ _ _ => "&\x7b200 OK\x7d" }

/-- A callback for project `demo` on `http://sonar:9000`, sent with the given form. -/
def sampleRequest (form : Values String) : InboundRequest :=
  { Form := form,
    Body := .ok { ServerURL := "http://sonar:9000", Project := { Key := "demo", Name := "Demo" } } }


/-! ## Lemmas about query escaping -/

set_option maxRecDepth 100000 in
theorem hex_roundtrip : ∀ n, n < 16 → ishex (upperhex n) = true ∧ unhex (upperhex n) = n := by
  decide

set_option maxRecDepth 100000 in
theorem plain_byte : ∀ b, b < 128 → shouldEscape b = false →
    (Char.ofNat b ≠ '%' ∧ Char.ofNat b ≠ '+' ∧ Char.ofNat b ≠ '&' ∧ Char.ofNat b ≠ '='
      ∧ Char.ofNat b ≠ ';') ∧ charBytes (Char.ofNat b) = [b] := by
  decide

theorem shouldEscape_of_ge (b : Nat) (hb : 128 ≤ b) : shouldEscape b = true := by
  unfold shouldEscape
  have h1 : ¬ b ≤ 122 := by omega
  have h2 : ¬ b ≤ 90 := by omega
  have h3 : ¬ b ≤ 57 := by omega
  have h4 : b ≠ 45 := by omega
  have h5 : b ≠ 95 := by omega
  have h6 : b ≠ 46 := by omega
  have h7 : b ≠ 126 := by omega
  simp [h1, h2, h3, h4, h5, h6, h7]

theorem unescapeChars_plus (rest : List Char) :
    unescapeChars ('+' :: rest) = (unescapeChars rest).map fun t => 32 :: t := by
  rcases rest with _ | ⟨a, _ | ⟨b, r⟩⟩ <;> simp [unescapeChars]

theorem unescapeChars_plain (c : Char) (rest : List Char) (h1 : c ≠ '%') (h2 : c ≠ '+') :
    unescapeChars (c :: rest) = (unescapeChars rest).map fun t => charBytes c ++ t := by
  rcases rest with _ | ⟨a, _ | ⟨b, r⟩⟩ <;> simp [unescapeChars, h1, h2]

theorem unescapeChars_escapeByte (b : Nat) (hb : b < 256) (rest : List Char) :
    unescapeChars (escapeByte b ++ rest) = (unescapeChars rest).map fun t => b :: t := by
  unfold escapeByte
  by_cases h32 : b = 32
  · subst h32
    simpa using unescapeChars_plus rest
  · simp only [h32, if_false]
    by_cases hs : shouldEscape b = true
    · obtain ⟨i1, u1⟩ := hex_roundtrip (b / 16) (by omega)
      obtain ⟨i2, u2⟩ := hex_roundtrip (b % 16) (by omega)
      have hb' : b / 16 * 16 + b % 16 = b := by omega
      simp [hs, unescapeChars, i1, i2, u1, u2, hb']
    · have hs' : shouldEscape b = false := by simpa using hs
      have hlt : b < 128 := by
        by_contra hge
        have := shouldEscape_of_ge b (by omega)
        simp [this] at hs'
      obtain ⟨⟨n1, n2, _, _, _⟩, hc⟩ := plain_byte b hlt hs'
      simp [hs', unescapeChars_plain _ rest n1 n2, hc]

theorem charBytes_lt (c : Char) : ∀ b ∈ charBytes c, b < 256 := by
  intro b hb
  simp only [charBytes, List.mem_map] at hb
  obtain ⟨u, _, rfl⟩ := hb
  exact u.val.isLt

theorem utf8Bytes_lt (s : String) : ∀ b ∈ utf8Bytes s, b < 256 := by
  intro b hb
  simp only [utf8Bytes, List.mem_flatMap] at hb
  obtain ⟨c, _, hc⟩ := hb
  exact charBytes_lt c b hc

theorem unescapeChars_escape (bs : List Nat) (h : ∀ b ∈ bs, b < 256) (rest : List Char) :
    unescapeChars (bs.flatMap escapeByte ++ rest) = (unescapeChars rest).map fun t => bs ++ t := by
  induction bs with
  | nil => simp
  | cons b bs ih =>
    have hb : b < 256 := h b (by simp)
    have ih' := ih fun x hx => h x (by simp [hx])
    rw [List.flatMap_cons, List.append_assoc, unescapeChars_escapeByte b hb, ih']
    cases unescapeChars rest <;> simp

set_option maxRecDepth 100000 in
theorem upperhex_no_sep : ∀ n, n < 16 →
    upperhex n ≠ '&' ∧ upperhex n ≠ '=' ∧ upperhex n ≠ ';' := by
  decide

theorem escapeByte_no_sep (b : Nat) (hb : b < 256) :
    ∀ c ∈ escapeByte b, c ≠ '&' ∧ c ≠ '=' ∧ c ≠ ';' := by
  intro c hc
  unfold escapeByte at hc
  by_cases h32 : b = 32
  · simp only [h32, if_true, List.mem_singleton] at hc
    subst hc
    decide
  · simp only [h32, if_false] at hc
    by_cases hs : shouldEscape b = true
    · simp only [hs, if_true, List.mem_cons, List.mem_singleton, List.not_mem_nil, or_false] at hc
      rcases hc with rfl | rfl | rfl
      · decide
      · exact upperhex_no_sep (b / 16) (by omega)
      · exact upperhex_no_sep (b % 16) (by omega)
    · have hs' : shouldEscape b = false := by simpa using hs
      have hlt : b < 128 := by
        by_contra hge
        have := shouldEscape_of_ge b (by omega)
        simp [this] at hs'
      simp only [hs', Bool.false_eq_true, if_false, List.mem_singleton] at hc
      subst hc
      obtain ⟨⟨_, _, n3, n4, n5⟩, _⟩ := plain_byte b hlt hs'
      exact ⟨n3, n4, n5⟩

theorem escape_no_sep (s : String) :
    ∀ c ∈ (QueryEscape s).data, c ≠ '&' ∧ c ≠ '=' ∧ c ≠ ';' := by
  intro c hc
  simp only [QueryEscape, List.mem_flatMap] at hc
  obtain ⟨b, hb, hcb⟩ := hc
  exact escapeByte_no_sep b (utf8Bytes_lt s b hb) c hcb

theorem QueryUnescape_QueryEscape (s : String) :
    QueryUnescape (QueryEscape s) = some (utf8Bytes s) := by
  have h := unescapeChars_escape (utf8Bytes s) (utf8Bytes_lt s) []
  simpa [QueryUnescape, QueryEscape, unescapeChars] using h

theorem cut_append_sep (a b : List Char) (sep : Char) (h : ∀ c ∈ a, c ≠ sep) :
    cut (a ++ sep :: b) sep = (a, b, true) := by
  induction a with
  | nil => simp [cut]
  | cons x a ih =>
    have hx : x ≠ sep := h x (by simp)
    have ih' := ih fun c hc => h c (by simp [hc])
    simp [cut, hx, ih']

theorem cut_no_sep (a : List Char) (sep : Char) (h : ∀ c ∈ a, c ≠ sep) :
    cut a sep = (a, [], false) := by
  induction a with
  | nil => simp [cut]
  | cons x a ih =>
    have hx : x ≠ sep := h x (by simp)
    have ih' := ih fun c hc => h c (by simp [hc])
    simp [cut, hx, ih']

theorem parseQueryChars_cons (m : Values (List Nat)) (err : Bool) (c : Char) (rest : List Char) :
    parseQueryChars m err (c :: rest) =
      if (cut (c :: rest) '&').1.contains ';' then parseQueryChars m true (cut (c :: rest) '&').2.1
      else if (cut (c :: rest) '&').1 = [] then parseQueryChars m err (cut (c :: rest) '&').2.1
      else
        match unescapeChars (cut (cut (c :: rest) '&').1 '=').1 with
        | none => parseQueryChars m true (cut (c :: rest) '&').2.1
        | some k =>
          match unescapeChars (cut (cut (c :: rest) '&').1 '=').2.1 with
          | none => parseQueryChars m true (cut (c :: rest) '&').2.1
          | some value => parseQueryChars (Values.Add m k value) err (cut (c :: rest) '&').2.1 := by
  rw [parseQueryChars]

theorem parseQueryChars_ne (m : Values (List Nat)) (err : Bool) (query : List Char)
    (h : query ≠ []) :
    parseQueryChars m err query =
      if (cut query '&').1.contains ';' then parseQueryChars m true (cut query '&').2.1
      else if (cut query '&').1 = [] then parseQueryChars m err (cut query '&').2.1
      else
        match unescapeChars (cut (cut query '&').1 '=').1 with
        | none => parseQueryChars m true (cut query '&').2.1
        | some k =>
          match unescapeChars (cut (cut query '&').1 '=').2.1 with
          | none => parseQueryChars m true (cut query '&').2.1
          | some value => parseQueryChars (Values.Add m k value) err (cut query '&').2.1 := by
  cases query with
  | nil => exact absurd rfl h
  | cons c rest => exact parseQueryChars_cons m err c rest

theorem segment_facts (k v : String) :
    (∀ c ∈ (QueryEscape k).data ++ '=' :: (QueryEscape v).data, c ≠ '&') ∧
    ¬ (';' ∈ (QueryEscape k).data ∨ ';' ∈ (QueryEscape v).data) ∧
    cut ((QueryEscape k).data ++ '=' :: (QueryEscape v).data) '=' =
      ((QueryEscape k).data, (QueryEscape v).data, true) := by
  have hk := escape_no_sep k
  have hv := escape_no_sep v
  refine ⟨?_, ?_, ?_⟩
  · intro c hc
    simp only [List.mem_append, List.mem_cons] at hc
    rcases hc with hc | rfl | hc
    · exact (hk c hc).1
    · decide
    · exact (hv c hc).1
  · intro hc
    rcases hc with hc | hc
    · exact (hk _ hc).2.2 rfl
    · exact (hv _ hc).2.2 rfl
  · exact cut_append_sep _ _ '=' fun c hc => (hk c hc).2.1

/-- A segment `escape k = escape v` followed by `&` and the rest of the query adds the
pair `(k, v)` to the map. -/
theorem parseQueryChars_segment (m : Values (List Nat)) (err : Bool) (k v : String)
    (q : List Char) :
    parseQueryChars m err (((QueryEscape k).data ++ '=' :: (QueryEscape v).data) ++ '&' :: q) =
      parseQueryChars (Values.Add m (utf8Bytes k) (utf8Bytes v)) err q := by
  obtain ⟨h1, h2, h3⟩ := segment_facts k v
  have hk : unescapeChars (QueryEscape k).data = some (utf8Bytes k) := QueryUnescape_QueryEscape k
  have hv : unescapeChars (QueryEscape v).data = some (utf8Bytes v) := QueryUnescape_QueryEscape v
  rw [parseQueryChars_ne _ _ _ (by simp), cut_append_sep _ _ '&' h1]
  simp [h2, h3, hk, hv]

/-- A last segment `escape k = escape v` adds the pair `(k, v)` and ends the loop. -/
theorem parseQueryChars_last (m : Values (List Nat)) (err : Bool) (k v : String) :
    parseQueryChars m err ((QueryEscape k).data ++ '=' :: (QueryEscape v).data) =
      (Values.Add m (utf8Bytes k) (utf8Bytes v), err) := by
  obtain ⟨h1, h2, h3⟩ := segment_facts k v
  have hk : unescapeChars (QueryEscape k).data = some (utf8Bytes k) := QueryUnescape_QueryEscape k
  have hv : unescapeChars (QueryEscape v).data = some (utf8Bytes v) := QueryUnescape_QueryEscape v
  rw [parseQueryChars_ne _ _ _ (by simp), cut_no_sep _ '&' h1]
  simp [h2, h3, hk, hv, parseQueryChars]

theorem buildDingLink_eq (url : String) (pcSlide : Bool) :
    buildDingLink url pcSlide =
      "dingtalk://dingtalkclient/page/link?" ++
        (QueryEscape "pcSlide" ++ "=" ++ QueryEscape (if pcSlide then "true" else "false") ++ "&"
          ++ QueryEscape "url" ++ "=" ++ QueryEscape url) := by
  have hle : bytesLE (utf8Bytes "url") (utf8Bytes "pcSlide") = false := by decide
  have hne : ("url" : String) ≠ "pcSlide" := by decide
  have hlen : 0 < "=".length := by decide
  simp [buildDingLink, Values.Encode, sortedKeys, Values.Add, Values.index, hle, hne, hlen,
    List.insertionSort, List.orderedInsert]

/-- Parsing the query string written by `buildDingLink` gives back both parameters. -/
theorem ParseQuery_encoded (url : String) (pcSlide : Bool) :
    (ParseQuery (QueryEscape "pcSlide" ++ "=" ++
        QueryEscape (if pcSlide then "true" else "false") ++ "&" ++ QueryEscape "url" ++ "=" ++
        QueryEscape url)).2 = false ∧
    Values.index (ParseQuery (QueryEscape "pcSlide" ++ "=" ++
        QueryEscape (if pcSlide then "true" else "false") ++ "&" ++ QueryEscape "url" ++ "=" ++
        QueryEscape url)).1 (utf8Bytes "url") = [utf8Bytes url] ∧
    Values.index (ParseQuery (QueryEscape "pcSlide" ++ "=" ++
        QueryEscape (if pcSlide then "true" else "false") ++ "&" ++ QueryEscape "url" ++ "=" ++
        QueryEscape url)).1 (utf8Bytes "pcSlide") =
      [utf8Bytes (if pcSlide then "true" else "false")] := by
  have hne : utf8Bytes "pcSlide" ≠ utf8Bytes "url" := by decide
  have hq : (QueryEscape "pcSlide" ++ "=" ++ QueryEscape (if pcSlide then "true" else "false")
      ++ "&" ++ QueryEscape "url" ++ "=" ++ QueryEscape url).data =
      ((QueryEscape "pcSlide").data ++ '=' :: (QueryEscape (if pcSlide then "true" else "false")).data)
        ++ '&' :: ((QueryEscape "url").data ++ '=' :: (QueryEscape url).data) := by
    simp [String.data_append]
  simp only [ParseQuery, hq, parseQueryChars_segment, parseQueryChars_last]
  simp [Values.Add, Values.index, hne, hne.symm]

theorem ParseQuery_buildDingLink (url : String) (pcSlide : Bool) :
    ∃ q, buildDingLink url pcSlide = "dingtalk://dingtalkclient/page/link?" ++ q ∧
      (ParseQuery q).2 = false ∧
      Values.index (ParseQuery q).1 (utf8Bytes "url") = [utf8Bytes url] ∧
      Values.index (ParseQuery q).1 (utf8Bytes "pcSlide") =
        [utf8Bytes (if pcSlide then "true" else "false")] :=
  ⟨_, buildDingLink_eq url pcSlide, ParseQuery_encoded url pcSlide⟩

/-! ## Lemmas about the measure loop -/

theorem measureLoop_append (ms : List Measure) (m : Measure) :
    measureLoop (ms ++ [m]) = measureStep (measureLoop ms) m := by
  simp [measureLoop, List.foldl_append]

/-- A measure whose name is not read by the handler leaves every variable as it is. -/
theorem measureStep_unread (l : Locals) (m : Measure) (h : m.Metric ∉ readMetrics) :
    measureStep l m = l := by
  simp only [readMetrics, List.mem_cons, List.mem_singleton, List.not_mem_nil, or_false,
    not_or] at h
  obtain ⟨h1, h2, h3, h4, h5, h6, h7, h8, h9, h10, h11⟩ := h
  simp [measureStep, h1, h2, h3, h4, h5, h6, h7, h8, h9, h10, h11]

/-- The cases of `switch measure.Metric`: which variable one iteration assigns. -/
theorem measureStep_cases (m : Measure) :
    (m.Metric = "bugs" ∧ ∀ l, measureStep l m = { l with totalBugs := m.Value }) ∨
      (m.Metric = "vulnerabilities" ∧ ∀ l, measureStep l m = { l with vulnerabilities := m.Value }) ∨
      (m.Metric = "code_smells" ∧ ∀ l, measureStep l m = { l with codeSmells := m.Value }) ∨
      (m.Metric = "coverage" ∧ ∀ l, measureStep l m = { l with coverage := m.Value }) ∨
      (m.Metric = "duplicated_lines_density" ∧ ∀ l, measureStep l m = { l with duplicatedLinesDensity := m.Value }) ∨
      (m.Metric = "critical_violations" ∧ ∀ l, measureStep l m = { l with critical_violations := m.Value }) ∨
      (m.Metric = "blocker_violations" ∧ ∀ l, measureStep l m = { l with blocker_violations := m.Value }) ∨
      (m.Metric = "major_violations" ∧ ∀ l, measureStep l m = { l with major_violations := m.Value }) ∨
      (m.Metric = "minor_violations" ∧ ∀ l, measureStep l m = { l with minor_violations := m.Value }) ∨
      (m.Metric = "info_violations" ∧ ∀ l, measureStep l m = { l with info_violations := m.Value }) ∨
      (m.Metric = "alert_status" ∧ ∀ l, measureStep l m =
        { l with alertStatus := m.Value, picUrl := alertSwitch l.picUrl m.Value }) ∨
      (m.Metric ∉ readMetrics ∧ ∀ l, measureStep l m = l) := by
  by_cases h1 : m.Metric = "bugs"
  · exact Or.inl ⟨h1, fun l => by rw [measureStep, if_pos h1]⟩
  by_cases h2 : m.Metric = "vulnerabilities"
  · exact Or.inr (Or.inl ⟨h2, fun l => by rw [measureStep, if_neg h1, if_pos h2]⟩)
  by_cases h3 : m.Metric = "code_smells"
  · exact Or.inr (Or.inr (Or.inl ⟨h3, fun l => by rw [measureStep, if_neg h1, if_neg h2, if_pos h3]⟩))
  by_cases h4 : m.Metric = "coverage"
  · exact Or.inr (Or.inr (Or.inr (Or.inl ⟨h4, fun l => by rw [measureStep, if_neg h1, if_neg h2, if_neg h3, if_pos h4]⟩)))
  by_cases h5 : m.Metric = "duplicated_lines_density"
  · exact Or.inr (Or.inr (Or.inr (Or.inr (Or.inl ⟨h5, fun l => by rw [measureStep, if_neg h1, if_neg h2, if_neg h3, if_neg h4, if_pos h5]⟩))))
  by_cases h6 : m.Metric = "critical_violations"
  · exact Or.inr (Or.inr (Or.inr (Or.inr (Or.inr (Or.inl ⟨h6, fun l => by rw [measureStep, if_neg h1, if_neg h2, if_neg h3, if_neg h4, if_neg h5, if_pos h6]⟩)))))
  by_cases h7 : m.Metric = "blocker_violations"
  · exact Or.inr (Or.inr (Or.inr (Or.inr (Or.inr (Or.inr (Or.inl ⟨h7, fun l => by rw [measureStep, if_neg h1, if_neg h2, if_neg h3, if_neg h4, if_neg h5, if_neg h6, if_pos h7]⟩))))))
  by_cases h8 : m.Metric = "major_violations"
  · exact Or.inr (Or.inr (Or.inr (Or.inr (Or.inr (Or.inr (Or.inr (Or.inl ⟨h8, fun l => by rw [measureStep, if_neg h1, if_neg h2, if_neg h3, if_neg h4, if_neg h5, if_neg h6, if_neg h7, if_pos h8]⟩)))))))
  by_cases h9 : m.Metric = "minor_violations"
  · exact Or.inr (Or.inr (Or.inr (Or.inr (Or.inr (Or.inr (Or.inr (Or.inr (Or.inl ⟨h9, fun l => by rw [measureStep, if_neg h1, if_neg h2, if_neg h3, if_neg h4, if_neg h5, if_neg h6, if_neg h7, if_neg h8, if_pos h9]⟩))))))))
  by_cases h10 : m.Metric = "info_violations"
  · exact Or.inr (Or.inr (Or.inr (Or.inr (Or.inr (Or.inr (Or.inr (Or.inr (Or.inr (Or.inl ⟨h10, fun l => by rw [measureStep, if_neg h1, if_neg h2, if_neg h3, if_neg h4, if_neg h5, if_neg h6, if_neg h7, if_neg h8, if_neg h9, if_pos h10]⟩)))))))))
  by_cases h11 : m.Metric = "alert_status"
  · exact Or.inr (Or.inr (Or.inr (Or.inr (Or.inr (Or.inr (Or.inr (Or.inr (Or.inr (Or.inr (Or.inl ⟨h11, fun l => by rw [measureStep, if_neg h1, if_neg h2, if_neg h3, if_neg h4, if_neg h5, if_neg h6, if_neg h7, if_neg h8, if_neg h9, if_neg h10, if_pos h11]⟩))))))))))
  exact Or.inr (Or.inr (Or.inr (Or.inr (Or.inr (Or.inr (Or.inr (Or.inr (Or.inr (Or.inr (Or.inr (⟨by simp [readMetrics, h1, h2, h3, h4, h5, h6, h7, h8, h9, h10, h11], fun l => by rw [measureStep, if_neg h1, if_neg h2, if_neg h3, if_neg h4, if_neg h5, if_neg h6, if_neg h7, if_neg h8, if_neg h9, if_neg h10, if_neg h11]⟩)))))))))))

/-- A measure other than `alert_status` leaves `picUrl` and `alertStatus` as they are. -/
theorem measureStep_not_alert (l : Locals) (m : Measure) (h : m.Metric ≠ "alert_status") :
    (measureStep l m).picUrl = l.picUrl ∧ (measureStep l m).alertStatus = l.alertStatus := by
  rcases measureStep_cases m with ⟨_, hs⟩ | ⟨_, hs⟩ | ⟨_, hs⟩ | ⟨_, hs⟩ | ⟨_, hs⟩ | ⟨_, hs⟩ |
    ⟨_, hs⟩ | ⟨_, hs⟩ | ⟨_, hs⟩ | ⟨_, hs⟩ | ⟨hm, _⟩ | ⟨_, hs⟩
  all_goals first
    | exact absurd hm h
    | (rw [hs l]; exact ⟨rfl, rfl⟩)

/-- An `alert_status` measure sets `alertStatus` and runs the inner switch. -/
theorem measureStep_alert (l : Locals) (m : Measure) (h : m.Metric = "alert_status") :
    (measureStep l m).picUrl = alertSwitch l.picUrl m.Value ∧
      (measureStep l m).alertStatus = m.Value := by
  simp [measureStep, h]

/-- Measures that are not `alert_status` with value `ERROR` or `OK` keep `picUrl`. -/
theorem foldl_picUrl_kept (post : List Measure)
    (h : ∀ m ∈ post, m.Metric = "alert_status" → m.Value ≠ "ERROR" ∧ m.Value ≠ "OK")
    (l : Locals) : (post.foldl measureStep l).picUrl = l.picUrl := by
  induction post generalizing l with
  | nil => rfl
  | cons m post ih =>
    rw [List.foldl_cons, ih (fun x hx => h x (by simp [hx]))]
    by_cases hm : m.Metric = "alert_status"
    · obtain ⟨h1, h2⟩ := h m (by simp) hm
      rw [(measureStep_alert l m hm).1]
      simp [alertSwitch, h1, h2]
    · exact (measureStep_not_alert l m hm).1

theorem lastValue_append (ms : List Measure) (m : Measure) (name : String) :
    lastValue (ms ++ [m]) name = if m.Metric = name then m.Value else lastValue ms name := by
  unfold lastValue
  by_cases h : m.Metric = name
  · simp [List.filter_append, List.filter_cons, h]
  · simp [List.filter_append, List.filter_cons, h]

/-- After the loop every metric variable holds the value of the last measure with its
name, or the empty string. -/
theorem measureLoop_fields (ms : List Measure) :
    (measureLoop ms).totalBugs = lastValue ms "bugs" ∧
    (measureLoop ms).vulnerabilities = lastValue ms "vulnerabilities" ∧
    (measureLoop ms).codeSmells = lastValue ms "code_smells" ∧
    (measureLoop ms).coverage = lastValue ms "coverage" ∧
    (measureLoop ms).duplicatedLinesDensity = lastValue ms "duplicated_lines_density" ∧
    (measureLoop ms).alertStatus = lastValue ms "alert_status" ∧
    (measureLoop ms).blocker_violations = lastValue ms "blocker_violations" ∧
    (measureLoop ms).critical_violations = lastValue ms "critical_violations" ∧
    (measureLoop ms).major_violations = lastValue ms "major_violations" ∧
    (measureLoop ms).minor_violations = lastValue ms "minor_violations" ∧
    (measureLoop ms).info_violations = lastValue ms "info_violations" := by
  induction ms using List.reverseRecOn with
  | nil => simp [measureLoop, lastValue, Locals.zero]
  | append_singleton ms m ih =>
    rw [measureLoop_append]
    simp only [lastValue_append]
    generalize measureLoop ms = l at ih ⊢
    obtain ⟨i1, i2, i3, i4, i5, i6, i7, i8, i9, i10, i11⟩ := ih
    rcases measureStep_cases m with ⟨hm, hs⟩ | ⟨hm, hs⟩ | ⟨hm, hs⟩ | ⟨hm, hs⟩ | ⟨hm, hs⟩ |
      ⟨hm, hs⟩ | ⟨hm, hs⟩ | ⟨hm, hs⟩ | ⟨hm, hs⟩ | ⟨hm, hs⟩ | ⟨hm, hs⟩ | ⟨hm, hs⟩
    all_goals
      rw [hs l]
      first
        | (simp only [hm]
           simp [i1, i2, i3, i4, i5, i6, i7, i8, i9, i10, i11])
        | (simp only [readMetrics, List.mem_cons, List.mem_singleton, List.not_mem_nil,
            or_false, not_or] at hm
           simp [hm, i1, i2, i3, i4, i5, i6, i7, i8, i9, i10, i11])

/-- Two iterations on measures with different names can be swapped. -/
theorem measureStep_comm (x y : Measure) (h : x.Metric ≠ y.Metric) (z : Locals) :
    measureStep (measureStep z x) y = measureStep (measureStep z y) x := by
  rcases measureStep_cases x with ⟨hx, sx⟩ | ⟨hx, sx⟩ | ⟨hx, sx⟩ | ⟨hx, sx⟩ | ⟨hx, sx⟩ |
      ⟨hx, sx⟩ | ⟨hx, sx⟩ | ⟨hx, sx⟩ | ⟨hx, sx⟩ | ⟨hx, sx⟩ | ⟨hx, sx⟩ | ⟨hx, sx⟩ <;>
    rcases measureStep_cases y with ⟨hy, sy⟩ | ⟨hy, sy⟩ | ⟨hy, sy⟩ | ⟨hy, sy⟩ | ⟨hy, sy⟩ |
      ⟨hy, sy⟩ | ⟨hy, sy⟩ | ⟨hy, sy⟩ | ⟨hy, sy⟩ | ⟨hy, sy⟩ | ⟨hy, sy⟩ | ⟨hy, sy⟩ <;>
    first
      | exact absurd (hx.trans hy.symm) h
      | (simp only [sx, sy])

/-! ## Lemmas about the handler -/

/-- A successful fetch has sent exactly the authenticated `GET` for the measures URL. -/
theorem getMeasures_ok (env : Env) (s k : String) (eff : List Effect) (md : MeasuresData)
    (h : getMeasures env s k = (eff, .ok md)) :
    eff = [Effect.clientDo ⟨"GET", measuresUrl s k, some (env.token, "")⟩] := by
  unfold getMeasures at h
  cases hn : env.newRequestErr "GET" (measuresUrl s k) with
  | some e => simp [hn] at h
  | none =>
    cases hd : env.clientDo ⟨"GET", measuresUrl s k, some (env.token, "")⟩ with
    | error e => simp [hn, hd] at h
    | ok resp =>
      simp only [hn, hd, Prod.mk.injEq] at h
      exact h.1.symm

/-- The three ways in which `getMeasures` fails. -/
theorem getMeasures_error (env : Env) (s k : String) (eff : List Effect) (err : String)
    (h : getMeasures env s k = (eff, .error err)) :
    env.newRequestErr "GET" (measuresUrl s k) = some err ∨
    env.clientDo ⟨"GET", measuresUrl s k, some (env.token, "")⟩ = .error err ∨
    ∃ resp, env.clientDo ⟨"GET", measuresUrl s k, some (env.token, "")⟩ = .ok resp ∧
      resp.Decoded = .error err := by
  unfold getMeasures at h
  cases hn : env.newRequestErr "GET" (measuresUrl s k) with
  | some e =>
    simp only [hn, Prod.mk.injEq, Except.error.injEq] at h
    exact Or.inl (by rw [h.2])
  | none =>
    cases hd : env.clientDo ⟨"GET", measuresUrl s k, some (env.token, "")⟩ with
    | error e =>
      simp only [hn, hd, Prod.mk.injEq, Except.error.injEq] at h
      exact Or.inr (Or.inl (by rw [h.2]))
    | ok resp =>
      simp only [hn, hd, Prod.mk.injEq] at h
      exact Or.inr (Or.inr ⟨resp, rfl, h.2⟩)

/-- The run of the handler when the body decodes and the fetch succeeds. -/
theorem dingTalkHandler_ok (env : Env) (r : InboundRequest) (cb : SonarQubeCallBackData)
    (eff : List Effect) (md : MeasuresData) (hb : r.Body = .ok cb)
    (hg : getMeasures env cb.ServerURL cb.Project.Key = (eff, .ok md)) :
    dingTalkHandler env r =
      ⟨eff ++ [Effect.httpPost (sendUrl (Values.Get r.Form "access_token")) "application/json"
          (dingMsg cb.Project.Name cb.ServerURL cb.Project.Key (measureLoop md.Measures))],
        sentRequests eff ++
          (httpPost env (sendUrl (Values.Get r.Form "access_token")) "application/json"
            (dingMsg cb.Project.Name cb.ServerURL cb.Project.Key (measureLoop md.Measures))).1,
        Outcome.responded 200
          (httpPost env (sendUrl (Values.Get r.Form "access_token")) "application/json"
            (dingMsg cb.Project.Name cb.ServerURL cb.Project.Key (measureLoop md.Measures))).2⟩ := by
  simp only [dingTalkHandler, hb, hg]

/-- The run of the handler when the body decodes and the fetch fails. -/
theorem dingTalkHandler_error (env : Env) (r : InboundRequest) (cb : SonarQubeCallBackData)
    (eff : List Effect) (err : String) (hb : r.Body = .ok cb)
    (hg : getMeasures env cb.ServerURL cb.Project.Key = (eff, .error err)) :
    dingTalkHandler env r =
      ⟨eff ++ [Effect.stdout ("request measures error: " ++ err ++ "\n")],
        sentRequests eff,
        Outcome.responded 500 ("request measures error: " ++ err)⟩ := by
  simp only [dingTalkHandler, hb, hg]

/-- A failed fetch has sent the `GET` or, when the request could not be built, nothing. -/
theorem getMeasures_error_effects (env : Env) (s k : String) (eff : List Effect)
    (err : String) (h : getMeasures env s k = (eff, .error err)) :
    eff = [] ∨ eff = [Effect.clientDo ⟨"GET", measuresUrl s k, some (env.token, "")⟩] := by
  unfold getMeasures at h
  cases hn : env.newRequestErr "GET" (measuresUrl s k) with
  | some e0 =>
    simp only [hn, Prod.mk.injEq] at h
    exact Or.inl h.1.symm
  | none =>
    cases hd : env.clientDo ⟨"GET", measuresUrl s k, some (env.token, "")⟩ with
    | error e0 =>
      simp only [hn, hd, Prod.mk.injEq] at h
      exact Or.inr h.1.symm
    | ok resp =>
      simp only [hn, hd, Prod.mk.injEq] at h
      exact Or.inr h.1.symm

/-- When `http.NewRequest` accepts the URL, `http.Post` sends one `POST` request. -/
theorem httpPost_built (env : Env) (url contentType : String) (payload : DingMsg)
    (h : env.newRequestErr "POST" url = none) :
    httpPost env url contentType payload =
      ([⟨"POST", url, none⟩], env.postDo url contentType payload) := by
  simp only [httpPost, h]

/-- The map read of a key that is stored, in a map with one entry per key. -/
theorem index_of_mem (v : Values String) (key : String) (vs : List String)
    (hkeys : (v.map Prod.fst).Nodup) (h : (key, vs) ∈ v) : Values.index v key = vs := by
  induction v with
  | nil => simp at h
  | cons p rest ih =>
    obtain ⟨k, ws⟩ := p
    simp only [List.map_cons, List.nodup_cons, List.mem_map, not_exists, not_and] at hkeys
    simp only [List.mem_cons, Prod.mk.injEq] at h
    unfold Values.index
    by_cases hk : k = key
    · simp only [hk, if_true]
      rcases h with ⟨_, h2⟩ | h
      · exact h2.symm
      · exact absurd (hk ▸ rfl : (key, vs).1 = k) (hkeys.1 (key, vs) h)
    · simp only [hk, if_false]
      rcases h with ⟨h1, _⟩ | h
      · exact absurd h1.symm hk
      · exact ih hkeys.2 h

/-- The map read of a key that is not stored. -/
theorem index_of_absent (v : Values String) (key : String) (h : ∀ p ∈ v, p.1 ≠ key) :
    Values.index v key = [] := by
  induction v with
  | nil => rfl
  | cons p rest ih =>
    obtain ⟨k, ws⟩ := p
    have hk : k ≠ key := h (k, ws) (by simp)
    unfold Values.index
    simp only [hk, if_false]
    exact ih fun q hq => h q (by simp [hq])

/-! ## The claims -/

/-- C1, as stated, fails: in the response `alert_status=ERROR, alert_status=WARN` the
quality-gate value the handler ends up with is `WARN`, yet the image is the failing
image and not the empty reference. -/
theorem C1_counterexample :
    (measureLoop [⟨"alert_status", "ERROR"⟩, ⟨"alert_status", "WARN"⟩]).alertStatus = "WARN" ∧
    (measureLoop [⟨"alert_status", "ERROR"⟩, ⟨"alert_status", "WARN"⟩]).picUrl
      = "http://s1.ax1x.com/2020/10/29/BGMZwD.png" ∧
    (measureLoop [⟨"alert_status", "ERROR"⟩, ⟨"alert_status", "WARN"⟩]).picUrl ≠ "" := by
  decide

/-- C1, amended: the status image is decided by the last `alert_status` measure whose
value is `ERROR` or `OK` (failing image for `ERROR`, passing image for `OK`), whatever
the other measures are; it is empty when no `alert_status` measure has one of these two
values; and when the response has at most one `alert_status` measure the image is the
function `ERROR` to failing, `OK` to passing, anything else or absent to empty, of the
value the handler ends up with. -/
theorem C1_image_from_last_decisive_alert_status
    (pre post : List Measure) (v : String) (hv : v = "ERROR" ∨ v = "OK")
    (hpost : ∀ m ∈ post, m.Metric = "alert_status" → m.Value ≠ "ERROR" ∧ m.Value ≠ "OK")
    (quiet : List Measure)
    (hquiet : ∀ m ∈ quiet, m.Metric = "alert_status" → m.Value ≠ "ERROR" ∧ m.Value ≠ "OK")
    (single : List Measure)
    (hsingle : (single.filter fun m => m.Metric = "alert_status").length ≤ 1) :
    (measureLoop (pre ++ ⟨"alert_status", v⟩ :: post)).picUrl
        = (if v = "ERROR" then failingImage else passingImage) ∧
    (measureLoop quiet).picUrl = "" ∧
    (measureLoop single).picUrl
        = (if (measureLoop single).alertStatus = "ERROR" then failingImage
           else if (measureLoop single).alertStatus = "OK" then passingImage else "") := by
  refine ⟨?_, ?_, ?_⟩
  · rw [measureLoop, List.foldl_append, List.foldl_cons, foldl_picUrl_kept post hpost,
      (measureStep_alert _ _ rfl).1]
    rcases hv with rfl | rfl <;> simp [alertSwitch]
  · exact foldl_picUrl_kept quiet hquiet Locals.zero
  · clear hv hpost hquiet
    induction single using List.reverseRecOn with
    | nil => simp [measureLoop, Locals.zero]
    | append_singleton ms m ih =>
      rw [measureLoop_append]
      by_cases hm : m.Metric = "alert_status"
      · have hnone : ∀ x ∈ ms, x.Metric = "alert_status" →
            x.Value ≠ "ERROR" ∧ x.Value ≠ "OK" := by
          intro x hx hxm
          have hmem : x ∈ ms.filter fun m => m.Metric = "alert_status" := by
            simp [List.mem_filter, hx, hxm]
          have hpos := List.length_pos_of_mem hmem
          have hone : ([m].filter fun m => m.Metric = "alert_status").length = 1 := by
            simp [List.filter_cons, hm]
          rw [List.filter_append, List.length_append] at hsingle
          omega
        have hpic : (measureLoop ms).picUrl = "" := foldl_picUrl_kept ms hnone Locals.zero
        rw [(measureStep_alert _ m hm).1, (measureStep_alert _ m hm).2, hpic]
        rfl
      · have hzero : ([m].filter fun m => m.Metric = "alert_status").length = 0 := by
          simp [List.filter_cons, hm]
        have hlen : (ms.filter fun m => m.Metric = "alert_status").length ≤ 1 := by
          rw [List.filter_append, List.length_append] at hsingle
          omega
        rw [(measureStep_not_alert _ m hm).1, (measureStep_not_alert _ m hm).2]
        exact ih hlen

/-- Witness for C1: an `ERROR` measure followed by an undecided one, a response without
`alert_status`, and a response with one `alert_status` measure. -/
theorem C1_image_from_last_decisive_alert_status_witness :
    (measureLoop ([⟨"bugs", "3"⟩] ++ ⟨"alert_status", "ERROR"⟩ ::
        [⟨"alert_status", "WARN"⟩, ⟨"coverage", "10"⟩])).picUrl
        = (if "ERROR" = "ERROR" then failingImage else passingImage) ∧
    (measureLoop [⟨"bugs", "3"⟩]).picUrl = "" ∧
    (measureLoop [⟨"alert_status", "OK"⟩, ⟨"bugs", "0"⟩]).picUrl
        = (if (measureLoop [⟨"alert_status", "OK"⟩, ⟨"bugs", "0"⟩]).alertStatus = "ERROR"
            then failingImage
           else if (measureLoop [⟨"alert_status", "OK"⟩, ⟨"bugs", "0"⟩]).alertStatus = "OK"
            then passingImage else "") :=
  C1_image_from_last_decisive_alert_status [⟨"bugs", "3"⟩]
    [⟨"alert_status", "WARN"⟩, ⟨"coverage", "10"⟩] "ERROR" (Or.inl rfl) (by decide)
    [⟨"bugs", "3"⟩] (by decide)
    [⟨"alert_status", "OK"⟩, ⟨"bugs", "0"⟩] (by decide)


/-- C2: when the callback decodes and the fetch succeeds, the body of the posted message
is thirteen lines joined by a blank line, always in the same order: image line, project
line, header, then bugs, vulnerabilities, code smells, coverage and duplication (each
followed by a percent sign), blocker, critical, major, minor and info violations.  Each
metric line carries the value of the (last) measure with that metric name and the empty
string when the response has no such measure. -/
theorem C2_body_is_thirteen_fixed_lines (env : Env) (r : InboundRequest)
    (cb : SonarQubeCallBackData) (eff : List Effect) (md : MeasuresData)
    (hb : r.Body = .ok cb)
    (hg : getMeasures env cb.ServerURL cb.Project.Key = (eff, .ok md)) :
    ∃ (lines : List String) (url : String) (msg : DingMsg),
      (dingTalkHandler env r).effects = eff ++ [Effect.httpPost url "application/json" msg] ∧
      msg.ActionCard.Text = String.intercalate "\n\n" lines ∧
      lines.length = 13 ∧
      lines =
        [ "![head](" ++ (measureLoop md.Measures).picUrl ++ ")",
          "本次扫描仓库: " ++ cb.Project.Name,
          "## 代码总体扫描结果",
          "BUG数: " ++ lastValue md.Measures "bugs" ++ " 个",
          "漏洞数: " ++ lastValue md.Measures "vulnerabilities" ++ " 个",
          "异味数: " ++ lastValue md.Measures "code_smells" ++ " 个",
          "测试覆盖率: " ++ lastValue md.Measures "coverage" ++ "%",
          "代码重复率: " ++ lastValue md.Measures "duplicated_lines_density" ++ "%",
          "阻断blocker数: " ++ lastValue md.Measures "blocker_violations" ++ " 个",
          "严重critical数: " ++ lastValue md.Measures "critical_violations" ++ " 个",
          "主要major数: " ++ lastValue md.Measures "major_violations" ++ " 个",
          "次要minor数: " ++ lastValue md.Measures "minor_violations" ++ " 个",
          "提示info数: " ++ lastValue md.Measures "info_violations" ++ " 个" ] := by
  obtain ⟨f1, f2, f3, f4, f5, _, f7, f8, f9, f10, f11⟩ := measureLoop_fields md.Measures
  refine ⟨_, sendUrl (Values.Get r.Form "access_token"),
    dingMsg cb.Project.Name cb.ServerURL cb.Project.Key (measureLoop md.Measures),
    ?_, ?_, ?_, rfl⟩
  · rw [dingTalkHandler_ok env r cb eff md hb hg]
  · simp only [dingMsg, textList, f1, f2, f3, f4, f5, f7, f8, f9, f10, f11]
  · rfl

/-- Witness for C2: quality gate `OK`, no bugs, coverage `87.5`, nothing else returned;
the coverage line reads `测试覆盖率: 87.5%` and the lines of absent metrics are empty. -/
theorem C2_body_is_thirteen_fixed_lines_witness :
    ∃ (lines : List String) (url : String) (msg : DingMsg),
      (dingTalkHandler
          (sampleEnv (.ok ⟨200, .ok ⟨[⟨"alert_status", "OK"⟩, ⟨"bugs", "0"⟩,
            ⟨"coverage", "87.5"⟩]⟩⟩))
          (sampleRequest [])).effects =
        [Effect.clientDo ⟨"GET", measuresUrl "http://sonar:9000" "demo",
          some ("squ_token", "")⟩] ++ [Effect.httpPost url "application/json" msg] ∧
      msg.ActionCard.Text = String.intercalate "\n\n" lines ∧
      lines.length = 13 ∧
      lines =
        [ "![head](http://s1.ax1x.com/2020/10/29/BGMeTe.png)",
          "本次扫描仓库: Demo",
          "## 代码总体扫描结果",
          "BUG数: 0 个",
          "漏洞数:  个",
          "异味数:  个",
          "测试覆盖率: 87.5%",
          "代码重复率: %",
          "阻断blocker数:  个",
          "严重critical数:  个",
          "主要major数:  个",
          "次要minor数:  个",
          "提示info数:  个" ] := by
  obtain ⟨lines, url, msg, h1, h2, h3, h4⟩ :=
    C2_body_is_thirteen_fixed_lines
      (sampleEnv (.ok ⟨200, .ok ⟨[⟨"alert_status", "OK"⟩, ⟨"bugs", "0"⟩,
        ⟨"coverage", "87.5"⟩]⟩⟩))
      (sampleRequest [])
      { ServerURL := "http://sonar:9000", Project := { Key := "demo", Name := "Demo" } }
      [Effect.clientDo ⟨"GET", measuresUrl "http://sonar:9000" "demo", some ("squ_token", "")⟩]
      ⟨[⟨"alert_status", "OK"⟩, ⟨"bugs", "0"⟩, ⟨"coverage", "87.5"⟩]⟩ rfl rfl
  exact ⟨lines, url, msg, h1, h2, h3, h4.trans (by decide)⟩

/-- C3: whenever `getMeasures` returns an error (the request cannot be built, it cannot be
sent, or the body of the reply does not decode), the handler answers with status 500 and
the body `request measures error: ` followed by the error text, and it issues no webhook
POST: after the effects of the fetch it only prints the error, it does not call
`http.Post`, and no `POST` request is issued. -/
theorem C3_fetch_error_answers_500_and_stops (env : Env) (r : InboundRequest)
    (cb : SonarQubeCallBackData) (eff : List Effect) (err : String)
    (hb : r.Body = .ok cb)
    (hg : getMeasures env cb.ServerURL cb.Project.Key = (eff, .error err)) :
    (dingTalkHandler env r).outcome
        = Outcome.responded 500 ("request measures error: " ++ err) ∧
    (dingTalkHandler env r).effects
        = eff ++ [Effect.stdout ("request measures error: " ++ err ++ "\n")] ∧
    (∀ e ∈ (dingTalkHandler env r).effects, e.isPost = false) ∧
    (env.newRequestErr "GET" (measuresUrl cb.ServerURL cb.Project.Key) = some err ∨
      env.clientDo ⟨"GET", measuresUrl cb.ServerURL cb.Project.Key, some (env.token, "")⟩
        = .error err ∨
      ∃ resp,
        env.clientDo ⟨"GET", measuresUrl cb.ServerURL cb.Project.Key, some (env.token, "")⟩
          = .ok resp ∧ resp.Decoded = .error err) ∧
    (∀ q ∈ (dingTalkHandler env r).requests, q.Method ≠ "POST") := by
  have hcause := getMeasures_error env _ _ eff err hg
  have heff := getMeasures_error_effects env _ _ eff err hg
  rw [dingTalkHandler_error env r cb eff err hb hg]
  refine ⟨rfl, rfl, ?_, hcause, ?_⟩
  · intro e he
    simp only [List.mem_append, List.mem_singleton] at he
    rcases he with he | rfl
    · rcases heff with rfl | rfl
      · simp at he
      · simp only [List.mem_singleton] at he
        subst he
        rfl
    · rfl
  · intro q hq
    rcases heff with rfl | rfl
    · simp [sentRequests] at hq
    · simp only [sentRequests, List.filterMap_cons, List.filterMap_nil,
        List.mem_singleton] at hq
      subst hq
      exact (by decide : ("GET" : String) ≠ "POST")

/-- Witness for C3: the scan server cannot be reached. -/
theorem C3_fetch_error_answers_500_and_stops_witness :
    (dingTalkHandler (sampleEnv (.error "connection refused")) (sampleRequest [])).outcome
        = Outcome.responded 500 ("request measures error: " ++ "connection refused") ∧
    (dingTalkHandler (sampleEnv (.error "connection refused")) (sampleRequest [])).effects
        = [Effect.clientDo ⟨"GET", measuresUrl "http://sonar:9000" "demo",
            some ("squ_token", "")⟩] ++
          [Effect.stdout ("request measures error: " ++ "connection refused" ++ "\n")] ∧
    (∀ e ∈ (dingTalkHandler (sampleEnv (.error "connection refused"))
        (sampleRequest [])).effects, e.isPost = false) ∧
    ((sampleEnv (.error "connection refused")).newRequestErr "GET"
        (measuresUrl "http://sonar:9000" "demo") = some "connection refused" ∨
      (sampleEnv (.error "connection refused")).clientDo
        ⟨"GET", measuresUrl "http://sonar:9000" "demo", some ("squ_token", "")⟩
        = .error "connection refused" ∨
      ∃ resp,
        (sampleEnv (.error "connection refused")).clientDo
          ⟨"GET", measuresUrl "http://sonar:9000" "demo", some ("squ_token", "")⟩
          = .ok resp ∧ resp.Decoded = .error "connection refused") ∧
    (∀ q ∈ (dingTalkHandler (sampleEnv (.error "connection refused"))
        (sampleRequest [])).requests, q.Method ≠ "POST") :=
  C3_fetch_error_answers_500_and_stops (sampleEnv (.error "connection refused"))
    (sampleRequest [])
    { ServerURL := "http://sonar:9000", Project := { Key := "demo", Name := "Demo" } }
    [Effect.clientDo ⟨"GET", measuresUrl "http://sonar:9000" "demo", some ("squ_token", "")⟩]
    "connection refused" rfl rfl

set_option maxRecDepth 100000 in
/-- C4, as stated, fails.  When the scan server cannot be reached the handler sends one
metrics GET and no webhook POST.  And when the fetch succeeds but the `access_token` has a
control character (query `access_token=a%0Ab`), `http.Post` cannot build the request:
the handler calls it, discards its error, and again only the GET has been issued. -/
theorem C4_counterexample :
    (dingTalkHandler (sampleEnv (.error "connection refused")) (sampleRequest [])).requests
      = [⟨"GET", measuresUrl "http://sonar:9000" "demo", some ("squ_token", "")⟩] ∧
    ((dingTalkHandler (sampleEnv (.error "connection refused"))
        (sampleRequest [])).requests.filter fun q => q.Method = "POST").length = 0 ∧
    (dingTalkHandler (strictEnv (.ok ⟨200, .ok ⟨[]⟩⟩))
        (sampleRequest [("access_token", ["a\nb"])])).requests
      = [⟨"GET", measuresUrl "http://sonar:9000" "demo", some ("squ_token", "")⟩] ∧
    ((dingTalkHandler (strictEnv (.ok ⟨200, .ok ⟨[]⟩⟩))
        (sampleRequest [("access_token", ["a\nb"])])).requests.filter
          fun q => q.Method = "POST").length = 0 ∧
    (dingTalkHandler (strictEnv (.ok ⟨200, .ok ⟨[]⟩⟩))
        (sampleRequest [("access_token", ["a\nb"])])).outcome
      = Outcome.responded 200 "<nil>" := by
  decide

/-- C4, amended: for every inbound call whose body decodes, whose metrics fetch succeeds
and for whose webhook URL `http.NewRequest` can build a request, exactly one metrics GET
and then exactly one webhook POST are issued, and nothing else: the handler makes the
two calls `httpClient.Do` and `http.Post`, in this order. -/
theorem C4_one_get_then_one_post_on_success (env : Env) (r : InboundRequest)
    (cb : SonarQubeCallBackData) (eff : List Effect) (md : MeasuresData)
    (hb : r.Body = .ok cb)
    (hg : getMeasures env cb.ServerURL cb.Project.Key = (eff, .ok md))
    (hp : env.newRequestErr "POST" (sendUrl (Values.Get r.Form "access_token")) = none) :
    (dingTalkHandler env r).requests =
      [ ⟨"GET", measuresUrl cb.ServerURL cb.Project.Key, some (env.token, "")⟩,
        ⟨"POST", sendUrl (Values.Get r.Form "access_token"), none⟩ ] ∧
    ((dingTalkHandler env r).requests.filter fun q => q.Method = "GET").length = 1 ∧
    ((dingTalkHandler env r).requests.filter fun q => q.Method = "POST").length = 1 ∧
    (dingTalkHandler env r).effects =
      [ Effect.clientDo
          ⟨"GET", measuresUrl cb.ServerURL cb.Project.Key, some (env.token, "")⟩,
        Effect.httpPost (sendUrl (Values.Get r.Form "access_token")) "application/json"
          (dingMsg cb.Project.Name cb.ServerURL cb.Project.Key (measureLoop md.Measures)) ] := by
  rw [dingTalkHandler_ok env r cb eff md hb hg, getMeasures_ok env _ _ eff md hg,
    httpPost_built env _ _ _ hp]
  refine ⟨rfl, ?_, ?_, rfl⟩
  · simp [sentRequests, List.filter_cons]
  · simp [sentRequests, List.filter_cons]

/-- Witness for C4: the scan server answers with one measure, the token is `abc`. -/
theorem C4_one_get_then_one_post_on_success_witness :
    (dingTalkHandler (sampleEnv (.ok ⟨200, .ok ⟨[⟨"bugs", "1"⟩]⟩⟩))
        (sampleRequest [("access_token", ["abc"])])).requests =
      [ ⟨"GET", measuresUrl "http://sonar:9000" "demo", some ("squ_token", "")⟩,
        ⟨"POST", sendUrl (Values.Get [("access_token", ["abc"])] "access_token"), none⟩ ] ∧
    ((dingTalkHandler (sampleEnv (.ok ⟨200, .ok ⟨[⟨"bugs", "1"⟩]⟩⟩))
        (sampleRequest [("access_token", ["abc"])])).requests.filter
          fun q => q.Method = "GET").length = 1 ∧
    ((dingTalkHandler (sampleEnv (.ok ⟨200, .ok ⟨[⟨"bugs", "1"⟩]⟩⟩))
        (sampleRequest [("access_token", ["abc"])])).requests.filter
          fun q => q.Method = "POST").length = 1 ∧
    (dingTalkHandler (sampleEnv (.ok ⟨200, .ok ⟨[⟨"bugs", "1"⟩]⟩⟩))
        (sampleRequest [("access_token", ["abc"])])).effects =
      [ Effect.clientDo ⟨"GET", measuresUrl "http://sonar:9000" "demo",
          some ("squ_token", "")⟩,
        Effect.httpPost (sendUrl (Values.Get [("access_token", ["abc"])] "access_token"))
          "application/json"
          (dingMsg "Demo" "http://sonar:9000" "demo" (measureLoop [⟨"bugs", "1"⟩])) ] :=
  C4_one_get_then_one_post_on_success (sampleEnv (.ok ⟨200, .ok ⟨[⟨"bugs", "1"⟩]⟩⟩))
    (sampleRequest [("access_token", ["abc"])])
    { ServerURL := "http://sonar:9000", Project := { Key := "demo", Name := "Demo" } }
    [Effect.clientDo ⟨"GET", measuresUrl "http://sonar:9000" "demo", some ("squ_token", "")⟩]
    ⟨[⟨"bugs", "1"⟩]⟩ rfl rfl rfl

/-- C5: when the callback decodes and the fetch succeeds, the message carries exactly two
buttons, view-results then download-report; each `ActionURL` is the deep-link prefix
followed by a query string that `ParseQuery` parses without error, and whose `url`
parameter is exactly the bytes of the target: server URL, `/dashboard?id=`, project key
for the first button and server URL, `/api/pdfreport/get?componentKey=`, project key for
the second. -/
theorem C5_buttons_round_trip_targets (env : Env) (r : InboundRequest)
    (cb : SonarQubeCallBackData) (eff : List Effect) (md : MeasuresData)
    (hb : r.Body = .ok cb)
    (hg : getMeasures env cb.ServerURL cb.Project.Key = (eff, .ok md)) :
    ∃ (url : String) (msg : DingMsg) (q1 q2 : String),
      (dingTalkHandler env r).effects = eff ++ [Effect.httpPost url "application/json" msg] ∧
      msg.ActionCard.Btns =
        [ ⟨"点击查看分析结果WEB(需要浏览器登陆过sonarqube)",
            "dingtalk://dingtalkclient/page/link?" ++ q1⟩,
          ⟨"点击下载分析报告PDF(需要浏览器登陆过sonarqube)",
            "dingtalk://dingtalkclient/page/link?" ++ q2⟩ ] ∧
      (ParseQuery q1).2 = false ∧
      Values.index (ParseQuery q1).1 (utf8Bytes "url")
        = [utf8Bytes (cb.ServerURL ++ "/dashboard?id=" ++ cb.Project.Key)] ∧
      (ParseQuery q2).2 = false ∧
      Values.index (ParseQuery q2).1 (utf8Bytes "url")
        = [utf8Bytes (cb.ServerURL ++ "/api/pdfreport/get?componentKey=" ++ cb.Project.Key)] := by
  obtain ⟨q1, e1, p1, u1, _⟩ :=
    ParseQuery_buildDingLink (messageUrl cb.ServerURL cb.Project.Key) false
  obtain ⟨q2, e2, p2, u2, _⟩ :=
    ParseQuery_buildDingLink (pdfUrl cb.ServerURL cb.Project.Key) false
  refine ⟨sendUrl (Values.Get r.Form "access_token"),
    dingMsg cb.Project.Name cb.ServerURL cb.Project.Key (measureLoop md.Measures), q1, q2,
    ?_, ?_, p1, u1, p2, u2⟩
  · rw [dingTalkHandler_ok env r cb eff md hb hg]
  · simp only [dingMsg, e1, e2]

/-- Witness for C5: a project key with a space and a non-ASCII letter. -/
theorem C5_buttons_round_trip_targets_witness :
    ∃ (url : String) (msg : DingMsg) (q1 q2 : String),
      (dingTalkHandler (sampleEnv (.ok ⟨200, .ok ⟨[]⟩⟩))
        ⟨[], .ok ⟨"http://sonar:9000", ⟨"my proj&é", "Demo"⟩⟩⟩).effects
        = [Effect.clientDo ⟨"GET", measuresUrl "http://sonar:9000" "my proj&é",
            some ("squ_token", "")⟩] ++ [Effect.httpPost url "application/json" msg] ∧
      msg.ActionCard.Btns =
        [ ⟨"点击查看分析结果WEB(需要浏览器登陆过sonarqube)",
            "dingtalk://dingtalkclient/page/link?" ++ q1⟩,
          ⟨"点击下载分析报告PDF(需要浏览器登陆过sonarqube)",
            "dingtalk://dingtalkclient/page/link?" ++ q2⟩ ] ∧
      (ParseQuery q1).2 = false ∧
      Values.index (ParseQuery q1).1 (utf8Bytes "url")
        = [utf8Bytes ("http://sonar:9000" ++ "/dashboard?id=" ++ "my proj&é")] ∧
      (ParseQuery q2).2 = false ∧
      Values.index (ParseQuery q2).1 (utf8Bytes "url")
        = [utf8Bytes ("http://sonar:9000" ++ "/api/pdfreport/get?componentKey=" ++ "my proj&é")] :=
  C5_buttons_round_trip_targets (sampleEnv (.ok ⟨200, .ok ⟨[]⟩⟩))
    ⟨[], .ok ⟨"http://sonar:9000", ⟨"my proj&é", "Demo"⟩⟩⟩
    ⟨"http://sonar:9000", ⟨"my proj&é", "Demo"⟩⟩
    [Effect.clientDo ⟨"GET", measuresUrl "http://sonar:9000" "my proj&é",
      some ("squ_token", "")⟩]
    ⟨[]⟩ rfl rfl

/-- C6, as stated, fails: for the sample callback the first button is the deep link with
`pcSlide=false`, and parsing its query string gives `pcSlide` the value `false`, which is
not `true`. -/
theorem C6_counterexample :
    (dingMsg "Demo" "http://sonar:9000" "demo" (measureLoop [])).ActionCard.Btns.map
        (fun b => b.ActionURL)
      = [ "dingtalk://dingtalkclient/page/link?pcSlide=false&url=http%3A%2F%2Fsonar%3A9000%2Fdashboard%3Fid%3Ddemo",
          "dingtalk://dingtalkclient/page/link?pcSlide=false&url=http%3A%2F%2Fsonar%3A9000%2Fapi%2Fpdfreport%2Fget%3FcomponentKey%3Ddemo" ] ∧
    Values.index
        (ParseQuery "pcSlide=false&url=http%3A%2F%2Fsonar%3A9000%2Fdashboard%3Fid%3Ddemo").1
        (utf8Bytes "pcSlide") = [utf8Bytes "false"] ∧
    utf8Bytes "false" ≠ utf8Bytes "true" := by
  have hq : "pcSlide=false&url=http%3A%2F%2Fsonar%3A9000%2Fdashboard%3Fid%3Ddemo"
      = QueryEscape "pcSlide" ++ "=" ++ QueryEscape (if false = true then "true" else "false")
        ++ "&" ++ QueryEscape "url" ++ "=" ++ QueryEscape "http://sonar:9000/dashboard?id=demo" := by
    decide
  refine ⟨?_, ?_, by decide⟩
  · simp only [dingMsg, List.map, buildDingLink_eq]
    decide
  · rw [hq]
    exact (ParseQuery_encoded "http://sonar:9000/dashboard?id=demo" false).2.2


/-- C6, amended: when the callback decodes and the fetch succeeds, both action links carry
the panel-mode flag `pcSlide` with the value `false`, which by the doc comment of
`buildDingLink` means that they open in the browser. -/
theorem C6_both_links_have_pcSlide_false (env : Env) (r : InboundRequest)
    (cb : SonarQubeCallBackData) (eff : List Effect) (md : MeasuresData)
    (hb : r.Body = .ok cb)
    (hg : getMeasures env cb.ServerURL cb.Project.Key = (eff, .ok md)) :
    ∃ (url : String) (msg : DingMsg) (q1 q2 : String),
      (dingTalkHandler env r).effects = eff ++ [Effect.httpPost url "application/json" msg] ∧
      msg.ActionCard.Btns.map (fun b => b.ActionURL) =
        [ "dingtalk://dingtalkclient/page/link?" ++ q1,
          "dingtalk://dingtalkclient/page/link?" ++ q2 ] ∧
      Values.index (ParseQuery q1).1 (utf8Bytes "pcSlide") = [utf8Bytes "false"] ∧
      Values.index (ParseQuery q2).1 (utf8Bytes "pcSlide") = [utf8Bytes "false"] := by
  obtain ⟨q1, e1, _, _, s1⟩ :=
    ParseQuery_buildDingLink (messageUrl cb.ServerURL cb.Project.Key) false
  obtain ⟨q2, e2, _, _, s2⟩ :=
    ParseQuery_buildDingLink (pdfUrl cb.ServerURL cb.Project.Key) false
  refine ⟨sendUrl (Values.Get r.Form "access_token"),
    dingMsg cb.Project.Name cb.ServerURL cb.Project.Key (measureLoop md.Measures), q1, q2,
    ?_, ?_, s1, s2⟩
  · rw [dingTalkHandler_ok env r cb eff md hb hg]
  · simp only [dingMsg, List.map, e1, e2]

/-- Witness for C6: the sample callback with an empty measures response. -/
theorem C6_both_links_have_pcSlide_false_witness :
    ∃ (url : String) (msg : DingMsg) (q1 q2 : String),
      (dingTalkHandler (sampleEnv (.ok ⟨200, .ok ⟨[]⟩⟩)) (sampleRequest [])).effects
        = [Effect.clientDo ⟨"GET", measuresUrl "http://sonar:9000" "demo",
            some ("squ_token", "")⟩] ++ [Effect.httpPost url "application/json" msg] ∧
      msg.ActionCard.Btns.map (fun b => b.ActionURL) =
        [ "dingtalk://dingtalkclient/page/link?" ++ q1,
          "dingtalk://dingtalkclient/page/link?" ++ q2 ] ∧
      Values.index (ParseQuery q1).1 (utf8Bytes "pcSlide") = [utf8Bytes "false"] ∧
      Values.index (ParseQuery q2).1 (utf8Bytes "pcSlide") = [utf8Bytes "false"] :=
  C6_both_links_have_pcSlide_false (sampleEnv (.ok ⟨200, .ok ⟨[]⟩⟩)) (sampleRequest [])
    { ServerURL := "http://sonar:9000", Project := { Key := "demo", Name := "Demo" } }
    [Effect.clientDo ⟨"GET", measuresUrl "http://sonar:9000" "demo", some ("squ_token", "")⟩]
    ⟨[]⟩ rfl rfl

/-- C7: a measure whose metric name is not one of the eleven names the handler reads is
ignored.  For every callback, if one fetch returns the measures `pre ++ m :: post` and
another returns `pre ++ post`, the loop ends in the same variables and the handler posts
the same message (title, body, buttons) to the same URL. -/
theorem C7_unread_metric_is_ignored (env env2 : Env) (r : InboundRequest)
    (cb : SonarQubeCallBackData) (eff eff2 : List Effect) (pre post : List Measure)
    (m : Measure) (hm : m.Metric ∉ readMetrics)
    (hb : r.Body = .ok cb)
    (hg : getMeasures env cb.ServerURL cb.Project.Key = (eff, .ok ⟨pre ++ m :: post⟩))
    (hg2 : getMeasures env2 cb.ServerURL cb.Project.Key = (eff2, .ok ⟨pre ++ post⟩)) :
    measureLoop (pre ++ m :: post) = measureLoop (pre ++ post) ∧
    ∃ (url : String) (msg : DingMsg),
      (dingTalkHandler env r).effects = eff ++ [Effect.httpPost url "application/json" msg] ∧
      (dingTalkHandler env2 r).effects
        = eff2 ++ [Effect.httpPost url "application/json" msg] := by
  have hloop : measureLoop (pre ++ m :: post) = measureLoop (pre ++ post) := by
    simp only [measureLoop, List.foldl_append, List.foldl_cons, measureStep_unread _ m hm]
  refine ⟨hloop, sendUrl (Values.Get r.Form "access_token"),
    dingMsg cb.Project.Name cb.ServerURL cb.Project.Key (measureLoop (pre ++ post)), ?_, ?_⟩
  · rw [dingTalkHandler_ok env r cb eff _ hb hg, hloop]
  · rw [dingTalkHandler_ok env2 r cb eff2 _ hb hg2]

/-- Witness for C7: the unread metric `ncloc` between two measures that are read. -/
theorem C7_unread_metric_is_ignored_witness :
    measureLoop ([Measure.mk "bugs" "2"] ++ Measure.mk "ncloc" "1200" ::
        [Measure.mk "alert_status" "OK"])
      = measureLoop ([Measure.mk "bugs" "2"] ++ [Measure.mk "alert_status" "OK"]) ∧
    ∃ (url : String) (msg : DingMsg),
      (dingTalkHandler
          (sampleEnv (.ok ⟨200, .ok ⟨[Measure.mk "bugs" "2"] ++ Measure.mk "ncloc" "1200" ::
            [Measure.mk "alert_status" "OK"]⟩⟩))
          (sampleRequest [])).effects
        = [Effect.clientDo ⟨"GET", measuresUrl "http://sonar:9000" "demo",
            some ("squ_token", "")⟩] ++ [Effect.httpPost url "application/json" msg] ∧
      (dingTalkHandler
          (sampleEnv (.ok ⟨200, .ok ⟨[Measure.mk "bugs" "2"] ++
            [Measure.mk "alert_status" "OK"]⟩⟩))
          (sampleRequest [])).effects
        = [Effect.clientDo ⟨"GET", measuresUrl "http://sonar:9000" "demo",
            some ("squ_token", "")⟩] ++ [Effect.httpPost url "application/json" msg] :=
  C7_unread_metric_is_ignored
    (sampleEnv (.ok ⟨200, .ok ⟨[Measure.mk "bugs" "2"] ++ Measure.mk "ncloc" "1200" ::
      [Measure.mk "alert_status" "OK"]⟩⟩))
    (sampleEnv (.ok ⟨200, .ok ⟨[Measure.mk "bugs" "2"] ++
      [Measure.mk "alert_status" "OK"]⟩⟩))
    (sampleRequest [])
    { ServerURL := "http://sonar:9000", Project := { Key := "demo", Name := "Demo" } }
    [Effect.clientDo ⟨"GET", measuresUrl "http://sonar:9000" "demo", some ("squ_token", "")⟩]
    [Effect.clientDo ⟨"GET", measuresUrl "http://sonar:9000" "demo", some ("squ_token", "")⟩]
    [Measure.mk "bugs" "2"] [Measure.mk "alert_status" "OK"] (Measure.mk "ncloc" "1200")
    (by decide) rfl rfl rfl

set_option maxRecDepth 100000 in
/-- C8, as stated, fails: the scan server answers with status 500 and a body that decodes
(to no measures); the handler does not look at the status, calls `http.Post`, the POST
request is sent, and the caller is answered with status 200. -/
theorem C8_counterexample :
    dingTalkHandler (sampleEnv (.ok ⟨500, .ok ⟨[]⟩⟩)) (sampleRequest []) =
      ⟨[ Effect.clientDo ⟨"GET", measuresUrl "http://sonar:9000" "demo",
            some ("squ_token", "")⟩,
         Effect.httpPost "https://oapi.dingtalk.com/robot/send?access_token="
            "application/json" (dingMsg "Demo" "http://sonar:9000" "demo" (measureLoop [])) ],
       [ ⟨"GET", measuresUrl "http://sonar:9000" "demo", some ("squ_token", "")⟩,
         ⟨"POST", "https://oapi.dingtalk.com/robot/send?access_token=", none⟩ ],
       Outcome.responded 200 "&\x7b200 OK\x7d"⟩ := by
  decide

/-- C8, amended: the handler never looks at the HTTP status of the reply to the measures
request.  Whatever the status is, a reply whose body does not decode makes the handler
answer with status 500 and the body `request measures error: ` followed by the decode
error, print the error and send nothing after the GET; and a reply whose body decodes is
handled as a success: the handler calls `http.Post` with the message, the POST request
is sent when `http.NewRequest` can build it for the webhook URL, and the caller is
answered with status 200. -/
theorem C8_status_code_not_examined (env env2 : Env) (r : InboundRequest)
    (cb : SonarQubeCallBackData) (code code2 : Nat) (err : String) (md : MeasuresData)
    (hb : r.Body = .ok cb)
    (hn : env.newRequestErr "GET" (measuresUrl cb.ServerURL cb.Project.Key) = none)
    (hd : env.clientDo
        ⟨"GET", measuresUrl cb.ServerURL cb.Project.Key, some (env.token, "")⟩
      = .ok ⟨code, .error err⟩)
    (hn2 : env2.newRequestErr "GET" (measuresUrl cb.ServerURL cb.Project.Key) = none)
    (hd2 : env2.clientDo
        ⟨"GET", measuresUrl cb.ServerURL cb.Project.Key, some (env2.token, "")⟩
      = .ok ⟨code2, .ok md⟩)
    (hp2 : env2.newRequestErr "POST" (sendUrl (Values.Get r.Form "access_token")) = none) :
    dingTalkHandler env r =
      ⟨[ Effect.clientDo
            ⟨"GET", measuresUrl cb.ServerURL cb.Project.Key, some (env.token, "")⟩,
         Effect.stdout ("request measures error: " ++ err ++ "\n") ],
       [ ⟨"GET", measuresUrl cb.ServerURL cb.Project.Key, some (env.token, "")⟩ ],
       Outcome.responded 500 ("request measures error: " ++ err)⟩ ∧
    dingTalkHandler env2 r =
      ⟨[ Effect.clientDo
            ⟨"GET", measuresUrl cb.ServerURL cb.Project.Key, some (env2.token, "")⟩,
         Effect.httpPost (sendUrl (Values.Get r.Form "access_token")) "application/json"
            (dingMsg cb.Project.Name cb.ServerURL cb.Project.Key (measureLoop md.Measures)) ],
       [ ⟨"GET", measuresUrl cb.ServerURL cb.Project.Key, some (env2.token, "")⟩,
         ⟨"POST", sendUrl (Values.Get r.Form "access_token"), none⟩ ],
       Outcome.responded 200
          (env2.postDo (sendUrl (Values.Get r.Form "access_token")) "application/json"
            (dingMsg cb.Project.Name cb.ServerURL cb.Project.Key
              (measureLoop md.Measures)))⟩ := by
  have hg : getMeasures env cb.ServerURL cb.Project.Key =
      ([Effect.clientDo
        ⟨"GET", measuresUrl cb.ServerURL cb.Project.Key, some (env.token, "")⟩],
        .error err) := by
    simp only [getMeasures, hn, hd]
  have hg2 : getMeasures env2 cb.ServerURL cb.Project.Key =
      ([Effect.clientDo
        ⟨"GET", measuresUrl cb.ServerURL cb.Project.Key, some (env2.token, "")⟩],
        .ok md) := by
    simp only [getMeasures, hn2, hd2]
  constructor
  · rw [dingTalkHandler_error env r cb _ err hb hg]
    rfl
  · rw [dingTalkHandler_ok env2 r cb _ md hb hg2, httpPost_built env2 _ _ _ hp2]
    rfl

/-- Witness for C8: status 502 with a body that is not JSON, and status 500 with a body
that decodes to one measure. -/
theorem C8_status_code_not_examined_witness :
    dingTalkHandler (sampleEnv (.ok ⟨502, .error "unexpected end of JSON input"⟩))
        (sampleRequest []) =
      ⟨[ Effect.clientDo ⟨"GET", measuresUrl "http://sonar:9000" "demo",
            some ("squ_token", "")⟩,
         Effect.stdout ("request measures error: " ++ "unexpected end of JSON input" ++ "\n") ],
       [ ⟨"GET", measuresUrl "http://sonar:9000" "demo", some ("squ_token", "")⟩ ],
       Outcome.responded 500 ("request measures error: " ++ "unexpected end of JSON input")⟩ ∧
    dingTalkHandler (sampleEnv (.ok ⟨500, .ok ⟨[⟨"bugs", "1"⟩]⟩⟩)) (sampleRequest []) =
      ⟨[ Effect.clientDo ⟨"GET", measuresUrl "http://sonar:9000" "demo",
            some ("squ_token", "")⟩,
         Effect.httpPost (sendUrl (Values.Get (sampleRequest []).Form "access_token"))
            "application/json"
            (dingMsg "Demo" "http://sonar:9000" "demo" (measureLoop [⟨"bugs", "1"⟩])) ],
       [ ⟨"GET", measuresUrl "http://sonar:9000" "demo", some ("squ_token", "")⟩,
         ⟨"POST", sendUrl (Values.Get (sampleRequest []).Form "access_token"), none⟩ ],
       Outcome.responded 200
          ((sampleEnv (.ok ⟨500, .ok ⟨[⟨"bugs", "1"⟩]⟩⟩)).postDo
            (sendUrl (Values.Get (sampleRequest []).Form "access_token")) "application/json"
            (dingMsg "Demo" "http://sonar:9000" "demo" (measureLoop [⟨"bugs", "1"⟩])))⟩ :=
  C8_status_code_not_examined
    (sampleEnv (.ok ⟨502, .error "unexpected end of JSON input"⟩))
    (sampleEnv (.ok ⟨500, .ok ⟨[⟨"bugs", "1"⟩]⟩⟩))
    (sampleRequest [])
    { ServerURL := "http://sonar:9000", Project := { Key := "demo", Name := "Demo" } }
    502 500 "unexpected end of JSON input" ⟨[⟨"bugs", "1"⟩]⟩ rfl rfl rfl rfl rfl rfl

set_option maxRecDepth 100000 in
/-- C9, as stated, fails: for a request whose `access_token` has a control character
(query `access_token=a%0Ab`, token `a`, line feed, `b`) the fetch succeeds and the handler
calls `http.Post` with the prefix followed by the token, but `http.NewRequest` rejects
that URL, the handler discards the error, and no POST is issued: the only request is
the GET, and the caller is answered with the text of a nil response. -/
theorem C9_counterexample :
    dingTalkHandler (strictEnv (.ok ⟨200, .ok ⟨[]⟩⟩))
        (sampleRequest [("access_token", ["a\nb"])]) =
      ⟨[ Effect.clientDo ⟨"GET", measuresUrl "http://sonar:9000" "demo",
            some ("squ_token", "")⟩,
         Effect.httpPost "https://oapi.dingtalk.com/robot/send?access_token=a\nb"
            "application/json" (dingMsg "Demo" "http://sonar:9000" "demo" (measureLoop [])) ],
       [ ⟨"GET", measuresUrl "http://sonar:9000" "demo", some ("squ_token", "")⟩ ],
       Outcome.responded 200 "<nil>"⟩ := by
  decide

/-- C9, amended: when the callback decodes and the fetch succeeds, the URL string the
handler hands to `http.Post` is `https://oapi.dingtalk.com/robot/send?access_token=`
followed by the first value the form holds under `access_token`, unchanged, and it is
that prefix with nothing after it when the form has no `access_token`; in both cases,
when `http.NewRequest` can build a request for this URL string, exactly this POST request
is sent after the GET. -/
theorem C9_post_target_is_prefix_plus_token (env : Env) (r r0 : InboundRequest)
    (cb cb0 : SonarQubeCallBackData) (eff eff0 : List Effect) (md md0 : MeasuresData)
    (tok : String) (more : List String)
    (hb : r.Body = .ok cb)
    (hg : getMeasures env cb.ServerURL cb.Project.Key = (eff, .ok md))
    (hkeys : (r.Form.map Prod.fst).Nodup)
    (htok : ("access_token", tok :: more) ∈ r.Form)
    (hp : env.newRequestErr "POST"
      ("https://oapi.dingtalk.com/robot/send?access_token=" ++ tok) = none)
    (hb0 : r0.Body = .ok cb0)
    (hg0 : getMeasures env cb0.ServerURL cb0.Project.Key = (eff0, .ok md0))
    (habsent : ∀ p ∈ r0.Form, p.1 ≠ "access_token")
    (hp0 : env.newRequestErr "POST"
      "https://oapi.dingtalk.com/robot/send?access_token=" = none) :
    (∃ msg : DingMsg,
      (dingTalkHandler env r).effects =
        eff ++ [Effect.httpPost ("https://oapi.dingtalk.com/robot/send?access_token=" ++ tok)
          "application/json" msg]) ∧
    (dingTalkHandler env r).requests =
      [ ⟨"GET", measuresUrl cb.ServerURL cb.Project.Key, some (env.token, "")⟩,
        ⟨"POST", "https://oapi.dingtalk.com/robot/send?access_token=" ++ tok, none⟩ ] ∧
    (∃ msg0 : DingMsg,
      (dingTalkHandler env r0).effects =
        eff0 ++ [Effect.httpPost "https://oapi.dingtalk.com/robot/send?access_token="
          "application/json" msg0]) ∧
    (dingTalkHandler env r0).requests =
      [ ⟨"GET", measuresUrl cb0.ServerURL cb0.Project.Key, some (env.token, "")⟩,
        ⟨"POST", "https://oapi.dingtalk.com/robot/send?access_token=", none⟩ ] := by
  have hget : Values.Get r.Form "access_token" = tok := by
    simp only [Values.Get, index_of_mem r.Form _ _ hkeys htok]
  have hget0 : Values.Get r0.Form "access_token" = "" := by
    simp only [Values.Get, index_of_absent r0.Form _ habsent]
  have hs : sendUrl (Values.Get r.Form "access_token")
      = "https://oapi.dingtalk.com/robot/send?access_token=" ++ tok := by
    rw [hget, sendUrl]
  have hs0 : sendUrl (Values.Get r0.Form "access_token")
      = "https://oapi.dingtalk.com/robot/send?access_token=" := by
    rw [hget0, sendUrl, String.append_empty]
  rw [dingTalkHandler_ok env r cb eff md hb hg, dingTalkHandler_ok env r0 cb0 eff0 md0 hb0 hg0,
    getMeasures_ok env _ _ eff md hg, getMeasures_ok env _ _ eff0 md0 hg0, hs, hs0,
    httpPost_built env _ _ _ hp, httpPost_built env _ _ _ hp0]
  exact ⟨⟨_, rfl⟩, rfl, ⟨_, rfl⟩, rfl⟩

/-- Witness for C9: a request with the token `abc123` and a request without a token. -/
theorem C9_post_target_is_prefix_plus_token_witness :
    (∃ msg : DingMsg,
      (dingTalkHandler (sampleEnv (.ok ⟨200, .ok ⟨[]⟩⟩))
          (sampleRequest [("lang", ["zh"]), ("access_token", ["abc123"])])).effects =
        [Effect.clientDo ⟨"GET", measuresUrl "http://sonar:9000" "demo",
            some ("squ_token", "")⟩] ++
          [Effect.httpPost ("https://oapi.dingtalk.com/robot/send?access_token=" ++ "abc123")
            "application/json" msg]) ∧
    (dingTalkHandler (sampleEnv (.ok ⟨200, .ok ⟨[]⟩⟩))
        (sampleRequest [("lang", ["zh"]), ("access_token", ["abc123"])])).requests =
      [ ⟨"GET", measuresUrl "http://sonar:9000" "demo", some ("squ_token", "")⟩,
        ⟨"POST", "https://oapi.dingtalk.com/robot/send?access_token=" ++ "abc123", none⟩ ] ∧
    (∃ msg0 : DingMsg,
      (dingTalkHandler (sampleEnv (.ok ⟨200, .ok ⟨[]⟩⟩))
          (sampleRequest [("lang", ["zh"])])).effects =
        [Effect.clientDo ⟨"GET", measuresUrl "http://sonar:9000" "demo",
            some ("squ_token", "")⟩] ++
          [Effect.httpPost "https://oapi.dingtalk.com/robot/send?access_token="
            "application/json" msg0]) ∧
    (dingTalkHandler (sampleEnv (.ok ⟨200, .ok ⟨[]⟩⟩))
        (sampleRequest [("lang", ["zh"])])).requests =
      [ ⟨"GET", measuresUrl "http://sonar:9000" "demo", some ("squ_token", "")⟩,
        ⟨"POST", "https://oapi.dingtalk.com/robot/send?access_token=", none⟩ ] :=
  C9_post_target_is_prefix_plus_token (sampleEnv (.ok ⟨200, .ok ⟨[]⟩⟩))
    (sampleRequest [("lang", ["zh"]), ("access_token", ["abc123"])])
    (sampleRequest [("lang", ["zh"])])
    { ServerURL := "http://sonar:9000", Project := { Key := "demo", Name := "Demo" } }
    { ServerURL := "http://sonar:9000", Project := { Key := "demo", Name := "Demo" } }
    [Effect.clientDo ⟨"GET", measuresUrl "http://sonar:9000" "demo", some ("squ_token", "")⟩]
    [Effect.clientDo ⟨"GET", measuresUrl "http://sonar:9000" "demo", some ("squ_token", "")⟩]
    ⟨[]⟩ ⟨[]⟩ "abc123" [] rfl rfl (by decide) (by decide) rfl rfl rfl (by decide) rfl

/-- C10: the message does not depend on the order of the measures when no metric name is
repeated.  For every callback, if two fetches return lists of measures that are
permutations of each other and in which every metric name occurs once, the loop ends in
the same variables and the handler posts the same message to the same URL. -/
theorem C10_order_of_distinct_measures_irrelevant (env env2 : Env) (r : InboundRequest)
    (cb : SonarQubeCallBackData) (eff eff2 : List Effect) (ms ms2 : List Measure)
    (hperm : ms.Perm ms2) (hnodup : (ms.map fun m => m.Metric).Nodup)
    (hb : r.Body = .ok cb)
    (hg : getMeasures env cb.ServerURL cb.Project.Key = (eff, .ok ⟨ms⟩))
    (hg2 : getMeasures env2 cb.ServerURL cb.Project.Key = (eff2, .ok ⟨ms2⟩)) :
    measureLoop ms = measureLoop ms2 ∧
    ∃ (url : String) (msg : DingMsg),
      (dingTalkHandler env r).effects = eff ++ [Effect.httpPost url "application/json" msg] ∧
      (dingTalkHandler env2 r).effects
        = eff2 ++ [Effect.httpPost url "application/json" msg] := by
  have hloop : measureLoop ms = measureLoop ms2 := by
    unfold measureLoop
    refine hperm.foldl_eq' ?_ Locals.zero
    intro x hx y hy z
    by_cases hxy : x = y
    · rw [hxy]
    · exact measureStep_comm x y
        (fun hname => hxy (List.inj_on_of_nodup_map hnodup hx hy hname)) z
  refine ⟨hloop, sendUrl (Values.Get r.Form "access_token"),
    dingMsg cb.Project.Name cb.ServerURL cb.Project.Key (measureLoop ms2), ?_, ?_⟩
  · rw [dingTalkHandler_ok env r cb eff _ hb hg, hloop]
  · rw [dingTalkHandler_ok env2 r cb eff2 _ hb hg2]

/-- Witness for C10: three measures in two different orders. -/
theorem C10_order_of_distinct_measures_irrelevant_witness :
    measureLoop [⟨"bugs", "2"⟩, ⟨"alert_status", "ERROR"⟩, ⟨"coverage", "41.0"⟩]
      = measureLoop [⟨"coverage", "41.0"⟩, ⟨"bugs", "2"⟩, ⟨"alert_status", "ERROR"⟩] ∧
    ∃ (url : String) (msg : DingMsg),
      (dingTalkHandler
          (sampleEnv (.ok ⟨200, .ok ⟨[⟨"bugs", "2"⟩, ⟨"alert_status", "ERROR"⟩,
            ⟨"coverage", "41.0"⟩]⟩⟩))
          (sampleRequest [])).effects
        = [Effect.clientDo ⟨"GET", measuresUrl "http://sonar:9000" "demo",
            some ("squ_token", "")⟩] ++ [Effect.httpPost url "application/json" msg] ∧
      (dingTalkHandler
          (sampleEnv (.ok ⟨200, .ok ⟨[⟨"coverage", "41.0"⟩, ⟨"bugs", "2"⟩,
            ⟨"alert_status", "ERROR"⟩]⟩⟩))
          (sampleRequest [])).effects
        = [Effect.clientDo ⟨"GET", measuresUrl "http://sonar:9000" "demo",
            some ("squ_token", "")⟩] ++ [Effect.httpPost url "application/json" msg] :=
  C10_order_of_distinct_measures_irrelevant
    (sampleEnv (.ok ⟨200, .ok ⟨[⟨"bugs", "2"⟩, ⟨"alert_status", "ERROR"⟩,
      ⟨"coverage", "41.0"⟩]⟩⟩))
    (sampleEnv (.ok ⟨200, .ok ⟨[⟨"coverage", "41.0"⟩, ⟨"bugs", "2"⟩,
      ⟨"alert_status", "ERROR"⟩]⟩⟩))
    (sampleRequest [])
    { ServerURL := "http://sonar:9000", Project := { Key := "demo", Name := "Demo" } }
    [Effect.clientDo ⟨"GET", measuresUrl "http://sonar:9000" "demo", some ("squ_token", "")⟩]
    [Effect.clientDo ⟨"GET", measuresUrl "http://sonar:9000" "demo", some ("squ_token", "")⟩]
    [⟨"bugs", "2"⟩, ⟨"alert_status", "ERROR"⟩, ⟨"coverage", "41.0"⟩]
    [⟨"coverage", "41.0"⟩, ⟨"bugs", "2"⟩, ⟨"alert_status", "ERROR"⟩]
    (by decide) (by decide) rfl rfl rfl



end SonarDing
